import Mathlib

/-!
Verification of the SIWE (EIP-4361) message validation and auto-remediation
engine: a shallow embedding of `SiweMessageParser` (parser.ts),
`LineBreakValidator` (lineBreakValidator.ts) and `FieldReplacer`
(fieldReplacer.ts), together with proofs and refutations of the
specification's claims about them.

Modelling conventions:
* A JavaScript string is modelled as a `List Char` (`JStr`).  JavaScript
  string methods used by the source (`split`, `join`, `startsWith`,
  `substring`, `trim`, `trimRight`, `includes`, template literals) are
  modelled by structurally recursive functions on `List Char` below.
* `Array.prototype.push` loops are modelled as list folds/appends in the
  same order; `for` loops with `break` are modelled by first-match
  searches (`List.findIdx?` or structural recursion) plus `List.set`.
* JavaScript `Date` and `Math.random` are impure; they are modelled by an
  explicit `Oracle` argument so that claims quantify over every possible
  outcome of the clock and of the random generator.
* A thrown JavaScript exception (for example calling `.replace` on
  `undefined`) is modelled by an `Option` result: `none` means the call
  threw.
* Character classes of the regexes in the source (`[a-fA-F0-9]`,
  `[a-zA-Z0-9]`, `[0-9]`, the `.` metacharacter excluding line
  terminators) are modelled on ASCII, which covers every string the
  source's own fixtures use.
-/

set_option maxRecDepth 40000
set_option maxHeartbeats 1600000


namespace Siwe

/-- JavaScript string, modelled as a list of characters. -/
abbrev JStr := List Char

/-- Embed a Lean string literal as a `JStr`. -/
def js (s : String) : JStr := s.data

/-- JavaScript whitespace (the fragment relevant to the sources:
space, tab, carriage return, line feed, form feed, vertical tab). -/
def isWs (c : Char) : Bool :=
  c = ' ' ∨ c = '\t' ∨ c = '\r' ∨ c = '\n' ∨ c = '\x0c' ∨ c = '\x0b'

/-- JavaScript `String.prototype.trimRight` (alias `trimEnd`). -/
def trimRight (s : JStr) : JStr := (s.reverse.dropWhile isWs).reverse

/-- JavaScript `String.prototype.trim`. -/
def trim (s : JStr) : JStr := trimRight (s.dropWhile isWs)

/-- JavaScript `s.split(sep)` for a one-character separator: always returns
at least one (possibly empty) segment, one more segment per separator. -/
def jsplit (sep : Char) : JStr → List JStr
  | [] => [[]]
  | c :: cs =>
    if c = sep then [] :: jsplit sep cs
    else
      match jsplit sep cs with
      | [] => [[c]]
      | h :: t => (c :: h) :: t

/-- JavaScript `lines.join(sep)` for a one-character separator. -/
def jjoin (sep : Char) : List JStr → JStr
  | [] => []
  | [s] => s
  | s :: t :: rest => s ++ sep :: jjoin sep (t :: rest)

/-! ## Data model (types.ts) -/
/-- The SIWE field map (`SiweMessageFields`): every field optional,
string-valued except the ordered `resources` list. -/
structure SiweMessageFields where
  domain : Option JStr := none
  address : Option JStr := none
  statement : Option JStr := none
  uri : Option JStr := none
  version : Option JStr := none
  chainId : Option JStr := none
  nonce : Option JStr := none
  issuedAt : Option JStr := none
  expirationTime : Option JStr := none
  notBefore : Option JStr := none
  requestId : Option JStr := none
  resources : Option (List JStr) := none
deriving DecidableEq, Repr

/-- A diagnostic (`ValidationError`): category, field, 1-based position,
human message, severity, fixability and the stable machine `code`. -/
structure ValidationError where
  type : String
  field : String
  line : Int
  column : Int
  message : String
  severity : String
  fixable : Bool
  suggestion : Option String := none
  code : String
deriving DecidableEq, Repr

/-- The parser's result (`ParsedSiweMessage`). -/
structure ParsedSiweMessage where
  fields : SiweMessageFields
  lines : List JStr
  rawMessage : JStr
  isValid : Bool
  parseErrors : List ValidationError
deriving DecidableEq, Repr

/-- Read a string-valued field of the map by its name, as the bracket
lookup `fields[name]` does; `none` models `undefined` (also returned for
`resources`, whose array value is not a string). -/
def getStrField (f : SiweMessageFields) (name : String) : Option JStr :=
  if name = "domain" then f.domain
  else if name = "address" then f.address
  else if name = "statement" then f.statement
  else if name = "uri" then f.uri
  else if name = "version" then f.version
  else if name = "chainId" then f.chainId
  else if name = "nonce" then f.nonce
  else if name = "issuedAt" then f.issuedAt
  else if name = "expirationTime" then f.expirationTime
  else if name = "notBefore" then f.notBefore
  else if name = "requestId" then f.requestId
  else none

/-- Write a string-valued field of the map by its name
(`(fields as any)[field] = value`). -/
def setStrField (f : SiweMessageFields) (name : String) (v : JStr) :
    SiweMessageFields :=
  if name = "domain" then { f with domain := some v }
  else if name = "address" then { f with address := some v }
  else if name = "statement" then { f with statement := some v }
  else if name = "uri" then { f with uri := some v }
  else if name = "version" then { f with version := some v }
  else if name = "chainId" then { f with chainId := some v }
  else if name = "nonce" then { f with nonce := some v }
  else if name = "issuedAt" then { f with issuedAt := some v }
  else if name = "expirationTime" then { f with expirationTime := some v }
  else if name = "notBefore" then { f with notBefore := some v }
  else if name = "requestId" then { f with requestId := some v }
  else f

end Siwe

namespace Siwe.SiweMessageParser
open Siwe

/-! ## Message parser (parser.ts, class SiweMessageParser) -/
/-- The constant tail of the header line. -/
def headerSuffix : JStr := js " wants you to sign in with your Ethereum account:"

/-- JavaScript `name.toUpperCase()` on the ASCII field names used by the
parser's `MISSING_` code construction. -/
def jsToUpper (s : String) : String := String.mk (s.data.map Char.toUpper)

/-- The result of matching a line against the header regex
`^(.+) wants you to sign in with your Ethereum account:$`: the captured
domain, or `none` when the regex fails.  The `.` metacharacter does not
match line terminators, so the captured part must be free of them. -/
def matchHeader (line : JStr) : Option JStr :=
  let k := line.length - headerSuffix.length
  if headerSuffix.isSuffixOf line ∧ 0 < k ∧
      (line.take k).all (fun c => ¬ (c = '\n' ∨ c = '\r')) then
    some (line.take k)
  else none

/-- `REQUIRED_FIELDS` of the parser. -/
def REQUIRED_FIELDS : List String :=
  ["domain", "address", "uri", "version", "chainId", "nonce", "issuedAt"]

/-- `hasRequiredFields`: every required field defined and non-empty. -/
def hasRequiredFields (fields : SiweMessageFields) : Bool :=
  REQUIRED_FIELDS.all fun name =>
    (getStrField fields name).isSome && (getStrField fields name).getD [] ≠ []

/-- `createParseError`: severity `error`, not fixable. -/
def createParseError (ty field : String) (line column : Int)
    (message code : String) : ValidationError :=
  { type := ty, field := field, line := line, column := column,
    message := message, severity := "error", fixable := false, code := code }

/-- The parser's cursor state: fields and errors accumulated so far, the
lines not yet consumed, and the 0-based index of the current line. -/
structure PState where
  fields : SiweMessageFields
  parseErrors : List ValidationError
  rest : List JStr
  idx : Nat
deriving Repr

/-- Step 1 of `parse`: the header line.  The cursor advances whether or
not the regex matched. -/
def headerStep (st : PState) : PState :=
  match st.rest with
  | [] => st
  | l :: ls =>
    match matchHeader l with
    | some d =>
      { st with fields := { st.fields with domain := some d },
                rest := ls, idx := st.idx + 1 }
    | none =>
      { st with
          parseErrors := st.parseErrors ++
            [createParseError "format" "header" (st.idx + 1) 1
              "Invalid header format. Expected: \"domain wants you to sign in with your Ethereum account:\""
              "INVALID_HEADER"],
          rest := ls, idx := st.idx + 1 }

/-- Step 2 of `parse`: the address line (taken trimmed, with no format
check); on a missing/blank line the error is recorded and the cursor does
not advance. -/
def addressStep (st : PState) : PState :=
  match st.rest with
  | l :: ls =>
    if trim l ≠ [] then
      { st with fields := { st.fields with address := some (trim l) },
                rest := ls, idx := st.idx + 1 }
    else
      { st with parseErrors := st.parseErrors ++
          [createParseError "format" "address" (st.idx + 1) 1
            "Missing Ethereum address" "MISSING_ADDRESS"] }
  | [] =>
    { st with parseErrors := st.parseErrors ++
        [createParseError "format" "address" (st.idx + 1) 1
          "Missing Ethereum address" "MISSING_ADDRESS"] }

/-- Skip one empty line if present. -/
def skipEmptyStep (st : PState) : PState :=
  match st.rest with
  | l :: ls => if l = [] then { st with rest := ls, idx := st.idx + 1 } else st
  | [] => st

/-- Step 4 of `parse`: the optional statement — the current line when it is
non-empty and does not start with `URI:` — plus one trailing empty line. -/
def statementStep (st : PState) : PState :=
  match st.rest with
  | l :: ls =>
    if l ≠ [] ∧ ¬ (js "URI:").isPrefixOf l then
      skipEmptyStep
        { st with fields := { st.fields with statement := some l },
                  rest := ls, idx := st.idx + 1 }
    else st
  | [] => st

/-- One iteration of the required-field loop: consume `prefix + value` or
record `MISSING_<FIELD>` without advancing. -/
def requiredFieldStep (pre : JStr) (fieldName : String) (st : PState) : PState :=
  match st.rest with
  | l :: ls =>
    if pre.isPrefixOf l then
      { st with fields := setStrField st.fields fieldName (l.drop pre.length),
                rest := ls, idx := st.idx + 1 }
    else
      { st with parseErrors := st.parseErrors ++
          [createParseError "format" fieldName (st.idx + 1) 1
            ("Missing required field: " ++ fieldName)
            ("MISSING_" ++ jsToUpper fieldName)] }
  | [] =>
    { st with parseErrors := st.parseErrors ++
        [createParseError "format" fieldName (st.idx + 1) 1
          ("Missing required field: " ++ fieldName)
          ("MISSING_" ++ jsToUpper fieldName)] }

/-- One iteration of the optional-field loop: consume if present, skip
silently otherwise. -/
def optionalFieldStep (pre : JStr) (fieldName : String) (st : PState) : PState :=
  match st.rest with
  | l :: ls =>
    if pre.isPrefixOf l then
      { st with fields := setStrField st.fields fieldName (l.drop pre.length),
                rest := ls, idx := st.idx + 1 }
    else st
  | [] => st

/-- The resources `while` loop: lines prefixed `- `, stripped of the
prefix, until a non-matching line or the end of input. -/
def takeResources : List JStr → List JStr × List JStr
  | [] => ([], [])
  | l :: ls =>
    if (js "- ").isPrefixOf l then
      let (rs, rest) := takeResources ls
      (l.drop 2 :: rs, rest)
    else ([], l :: ls)

/-- Step 7 of `parse`: the `Resources:` block; the field is set only when
at least one entry was collected. -/
def resourcesStep (st : PState) : PState :=
  match st.rest with
  | l :: ls =>
    if l = js "Resources:" then
      let (rs, rest) := takeResources ls
      if rs ≠ [] then
        { st with fields := { st.fields with resources := some rs },
                  rest := rest, idx := st.idx + 1 + rs.length }
      else { st with rest := rest, idx := st.idx + 1 }
    else st
  | [] => st

/-- The full sequence of parsing steps of `parse`, applied to the split
lines: header, address, blank line, statement, the five required fields in
fixed order, the three optional fields in fixed order, resources. -/
def parseSteps (lines : List JStr) : PState :=
  resourcesStep
    (optionalFieldStep (js "Request ID: ") "requestId"
      (optionalFieldStep (js "Not Before: ") "notBefore"
        (optionalFieldStep (js "Expiration Time: ") "expirationTime"
          (requiredFieldStep (js "Issued At: ") "issuedAt"
            (requiredFieldStep (js "Nonce: ") "nonce"
              (requiredFieldStep (js "Chain ID: ") "chainId"
                (requiredFieldStep (js "Version: ") "version"
                  (requiredFieldStep (js "URI: ") "uri"
                    (statementStep
                      (skipEmptyStep
                        (addressStep
                          (headerStep
                            { fields := {}, parseErrors := [],
                              rest := lines, idx := 0 }))))))))))))

/-- `SiweMessageParser.parse`: the single forward pass of parser.ts.
Total by construction — every failure is a `parseErrors` entry. -/
def parse (message : JStr) : ParsedSiweMessage :=
  let lines := jsplit '\n' message
  let st := parseSteps lines
  { fields := st.fields,
    lines := lines,
    rawMessage := message,
    isValid := st.parseErrors.isEmpty && hasRequiredFields st.fields,
    parseErrors := st.parseErrors }

/-- One conditional `lines.push` of `generateMessage`: empty-string values
are falsy in JavaScript and therefore skipped. -/
def emitField (v : Option JStr) (mk : JStr → JStr) : List JStr :=
  match v with
  | some s => if s = [] then [] else [mk s]
  | none => []

/-- The list of lines emitted by `generateMessage`. -/
def genLines (fields : SiweMessageFields) : List JStr :=
  emitField fields.domain (fun d => d ++ headerSuffix) ++
  emitField fields.address id ++
  [[]] ++
  (match fields.statement with
   | some s => if s = [] then [] else [s, []]
   | none => []) ++
  emitField fields.uri (fun v => js "URI: " ++ v) ++
  emitField fields.version (fun v => js "Version: " ++ v) ++
  emitField fields.chainId (fun v => js "Chain ID: " ++ v) ++
  emitField fields.nonce (fun v => js "Nonce: " ++ v) ++
  emitField fields.issuedAt (fun v => js "Issued At: " ++ v) ++
  emitField fields.expirationTime (fun v => js "Expiration Time: " ++ v) ++
  emitField fields.notBefore (fun v => js "Not Before: " ++ v) ++
  emitField fields.requestId (fun v => js "Request ID: " ++ v) ++
  (match fields.resources with
   | some rs =>
     if rs.length > 0 then js "Resources:" :: rs.map (fun r => js "- " ++ r)
     else []
   | none => [])

/-- `SiweMessageParser.generateMessage`: emits header, address, one blank
line, statement plus blank line when present, the required fields, the
optional fields and the resources block, joined by line feeds. -/
def generateMessage (fields : SiweMessageFields) : JStr :=
  jjoin '\n' (genLines fields)

end Siwe.SiweMessageParser

namespace Siwe

/-- The regex `^(0x)?[a-fA-F0-9]{40}$` used for address-looking lines. -/
def isHexDigit (c : Char) : Bool :=
  c.isDigit || ('a' ≤ c && c ≤ 'f') || ('A' ≤ c && c ≤ 'F')

/-- Address-line pattern: 40 hex digits with an optional `0x` prefix. -/
def addressLinePattern (s : JStr) : Bool :=
  let core := if (js "0x").isPrefixOf s then s.drop 2 else s
  core.length = 40 && core.all isHexDigit

/-- JavaScript `hay.includes(needle)`: the needle occurs somewhere. -/
def jincludes (needle : JStr) : JStr → Bool
  | [] => needle.isEmpty
  | c :: cs => needle.isPrefixOf (c :: cs) || jincludes needle cs

end Siwe

namespace Siwe.LineBreakValidator
open Siwe

/-! ## Structural line-break validator (lineBreakValidator.ts) -/
/-- The header marker scanned for by `analyzeMessageStructure`. -/
def wantsMarker : JStr := js " wants you to sign in with your Ethereum account:"

/-- Structural anchor positions; `-1` is the not-found sentinel. -/
structure MessageStructure where
  headerIndex : Int := -1
  addressIndex : Int := -1
  statementIndex : Int := -1
  uriIndex : Int := -1
  versionIndex : Int := -1
  chainIdIndex : Int := -1
  nonceIndex : Int := -1
  issuedAtIndex : Int := -1
deriving DecidableEq, Repr

/-- One iteration of `analyzeMessageStructure`'s `forEach`: the else-if
classification chain over a line; later header/address/field matches
overwrite earlier ones, while only the first statement candidate after the
header is kept. -/
def analyzeStep (st : MessageStructure) (index : Nat) (line : JStr) :
    MessageStructure :=
  if jincludes wantsMarker line then { st with headerIndex := index }
  else if addressLinePattern (trim line) then { st with addressIndex := index }
  else if (js "URI: ").isPrefixOf line then { st with uriIndex := index }
  else if (js "Version: ").isPrefixOf line then { st with versionIndex := index }
  else if (js "Chain ID: ").isPrefixOf line then { st with chainIdIndex := index }
  else if (js "Nonce: ").isPrefixOf line then { st with nonceIndex := index }
  else if (js "Issued At: ").isPrefixOf line then { st with issuedAtIndex := index }
  else if trim line ≠ [] ∧
      ¬ (js "URI: ").isPrefixOf line ∧
      ¬ (js "Version: ").isPrefixOf line ∧
      ¬ (js "Chain ID: ").isPrefixOf line ∧
      ¬ (js "Nonce: ").isPrefixOf line ∧
      ¬ (js "Issued At: ").isPrefixOf line ∧
      ¬ (js "Expiration Time: ").isPrefixOf line ∧
      ¬ (js "Not Before: ").isPrefixOf line ∧
      ¬ (js "Request ID: ").isPrefixOf line ∧
      ¬ (js "Resources:").isPrefixOf line ∧
      st.headerIndex ≠ -1 ∧ (index : Int) > st.headerIndex then
    (if st.statementIndex = -1 then { st with statementIndex := index } else st)
  else st

/-- `analyzeMessageStructure`: one scan over all lines. -/
def analyzeMessageStructure (lines : List JStr) : MessageStructure :=
  lines.enum.foldl (fun st p => analyzeStep st p.1 p.2) {}

/-- JavaScript `lines.slice(a, b)` for the non-negative indices used here. -/
def jslice (lines : List JStr) (a b : Int) : List JStr :=
  (lines.drop a.toNat).take (b - a).toNat

/-- `getExpectedEmptyLineBeforeUri`. -/
def getExpectedEmptyLineBeforeUri (st : MessageStructure) : Int :=
  if st.statementIndex ≠ -1 then st.statementIndex + 1
  else if st.addressIndex ≠ -1 then st.addressIndex + 1
  else -1

/-- `countConsecutiveEmptyLinesBefore`: consecutive `''` lines directly
above the given index (the indices inspected are always in bounds; the
non-empty default makes out-of-range reads stop the count). -/
def countEmptyBefore (lines : List JStr) : Nat → Nat
  | 0 => 0
  | i + 1 => if lines.getD i (js "x") = [] then countEmptyBefore lines i + 1 else 0

/-- `checkExtraLineBreaks`: extra blank lines between header and address,
before the `URI:` line, and between consecutive required fields. -/
def checkExtraLineBreaks (lines : List JStr) : List ValidationError :=
  let st := analyzeMessageStructure lines
  let errs1 : List ValidationError :=
    if st.headerIndex ≠ -1 ∧ st.addressIndex ≠ -1 then
      if (jslice lines (st.headerIndex + 1) st.addressIndex).any (fun l => l = []) then
        [{ type := "format", field := "structure", line := st.headerIndex + 2,
           column := 1, message := "Extra empty line between header and address",
           severity := "error", fixable := true,
           suggestion := some "Remove extra empty lines between header and Ethereum address",
           code := "EXTRA_LINE_BREAK_HEADER_ADDRESS" }]
      else []
    else []
  let errs2 : List ValidationError :=
    if st.uriIndex ≠ -1 then
      if getExpectedEmptyLineBeforeUri st ≠ -1 then
        let n := countEmptyBefore lines st.uriIndex.toNat
        if n > 1 then
          let extraLinesStart : Int := st.uriIndex - n + 1
          [{ type := "format", field := "structure", line := extraLinesStart + 1,
             column := 1,
             message := s!"Extra empty lines before URI field (found {n}, expected 1)",
             severity := "error", fixable := true,
             suggestion := some "Remove extra empty lines before URI field",
             code := "EXTRA_LINE_BREAKS_BEFORE_URI" }]
        else []
      else []
    else []
  let requiredIdx :=
    [st.uriIndex, st.versionIndex, st.chainIdIndex, st.nonceIndex,
     st.issuedAtIndex].filter (fun i => i ≠ -1)
  let errs3 : List ValidationError :=
    (requiredIdx.zip requiredIdx.tail).foldl (fun acc p =>
      if p.2 - p.1 > 1 then
        let k := p.2 - p.1 - 1
        acc ++
          [{ type := "format", field := "structure", line := p.1 + 2, column := 1,
             message := s!"Extra empty lines between required fields ({k} empty lines found)",
             severity := "error", fixable := true,
             suggestion := some "Required fields should be on consecutive lines with no empty lines between them",
             code := "EXTRA_LINE_BREAKS_BETWEEN_FIELDS" }]
      else acc) []
  errs1 ++ errs2 ++ errs3

/-- `checkMissingLineBreaks`: a statement directly after the address, or
the `URI:` line directly after the statement. -/
def checkMissingLineBreaks (lines : List JStr) : List ValidationError :=
  let st := analyzeMessageStructure lines
  let errs1 : List ValidationError :=
    if st.addressIndex ≠ -1 ∧ st.statementIndex ≠ -1 then
      if st.statementIndex - st.addressIndex = 1 then
        [{ type := "format", field := "structure", line := st.addressIndex + 2,
           column := 1, message := "Missing empty line between address and statement",
           severity := "error", fixable := true,
           suggestion := some "Add an empty line between the Ethereum address and statement",
           code := "MISSING_LINE_BREAK_ADDRESS_STATEMENT" }]
      else []
    else []
  let errs2 : List ValidationError :=
    if st.statementIndex ≠ -1 ∧ st.uriIndex ≠ -1 then
      if st.uriIndex - st.statementIndex = 1 then
        [{ type := "format", field := "structure", line := st.statementIndex + 2,
           column := 1, message := "Missing empty line between statement and URI field",
           severity := "error", fixable := true,
           suggestion := some "Add an empty line between the statement and URI field",
           code := "MISSING_LINE_BREAK_STATEMENT_URI" }]
      else []
    else []
  errs1 ++ errs2

/-- `checkTrailingWhitespace`. -/
def checkTrailingWhitespace (lines : List JStr) : List ValidationError :=
  lines.enum.foldl (fun acc p =>
    if p.2.length > 0 ∧ p.2 ≠ trimRight p.2 then
      acc ++
        [{ type := "format", field := "whitespace", line := (p.1 : Int) + 1,
           column := ((trimRight p.2).length : Int) + 1,
           message := "Line has trailing whitespace", severity := "warning",
           fixable := true,
           suggestion := some "Remove trailing spaces/tabs from the end of the line",
           code := "TRAILING_WHITESPACE" }]
    else acc) []

/-- `checkConsecutiveEmptyLines`: a run of more than two blank lines is
reported when the first following non-blank line is reached. -/
def checkConsecutiveEmptyLines (lines : List JStr) : List ValidationError :=
  (lines.enum.foldl (fun acc p =>
    match acc, p with
    | (errs, cnt, start), (i, line) =>
      if trim line = [] then
        (errs, cnt + 1, if cnt = 0 then (i : Int) else start)
      else
        ((if cnt > 2 then
            errs ++
              [{ type := "format", field := "structure", line := start + 2,
                 column := 1,
                 message := s!"Too many consecutive empty lines ({cnt} found)",
                 severity := "warning", fixable := true,
                 suggestion := some "Reduce to at most 2 consecutive empty lines",
                 code := "TOO_MANY_CONSECUTIVE_EMPTY_LINES" }]
          else errs), 0, start))
    (([], 0, -1) : List ValidationError × Nat × Int)).1

/-- `validateLineBreaks`: the four checks, concatenated in source order. -/
def validateLineBreaks (message : JStr) : List ValidationError :=
  let lines := jsplit '\n' message
  checkExtraLineBreaks lines ++ checkMissingLineBreaks lines ++
    checkTrailingWhitespace lines ++ checkConsecutiveEmptyLines lines

/-- One iteration of the `fixLineBreaks` rebuild loop (every branch of the
source's `while` advances by exactly one line, so the loop is a flat map
over the cleaned lines). -/
def fixBranch (st : MessageStructure) (i : Nat) (line : JStr) : List JStr :=
  if (i : Int) = st.headerIndex then [line]
  else if (i : Int) = st.addressIndex then
    line :: (if st.statementIndex ≠ -1 then [[]] else [])
  else if (i : Int) = st.statementIndex then [line, []]
  else if (js "URI: ").isPrefixOf line ∨ (js "Version: ").isPrefixOf line ∨
      (js "Chain ID: ").isPrefixOf line ∨ (js "Nonce: ").isPrefixOf line ∨
      (js "Issued At: ").isPrefixOf line then [line]
  else if (js "Expiration Time: ").isPrefixOf line ∨
      (js "Not Before: ").isPrefixOf line ∨
      (js "Request ID: ").isPrefixOf line then [line]
  else if (js "Resources:").isPrefixOf line ∨ (js "- ").isPrefixOf line then [line]
  else if line = [] then []
  else [line]

/-- `fixLineBreaks`: anchors from the raw lines, trailing whitespace
stripped, structure rebuilt, blank-line runs collapsed to at most two. -/
def fixLineBreaks (message : JStr) : JStr :=
  let lines := jsplit '\n' message
  let st := analyzeMessageStructure lines
  let cleanedLines := lines.map trimRight
  let fixedLines := cleanedLines.enum.foldl (fun acc p => acc ++ fixBranch st p.1 p.2) []
  let finalLines := (fixedLines.foldl (fun acc line =>
      match acc with
      | (out, cnt) =>
        if line = [] then
          (if cnt + 1 ≤ 2 then out ++ [line] else out, cnt + 1)
        else (out ++ [line], 0))
    (([], 0) : List JStr × Nat)).1
  jjoin '\n' finalLines

end Siwe.LineBreakValidator

namespace Siwe.FieldReplacer
open Siwe

/-! ## Targeted field replacement (fieldReplacer.ts, class FieldReplacer) -/
/-- The header marker used by the replacer's own scans. -/
def wantsMarker : JStr := js " wants you to sign in with your Ethereum account:"

/-- JavaScript `lines.splice(i, 0, x)`: insert `x` at index `i`. -/
def jsplice (i : Nat) (x : JStr) (lines : List JStr) : List JStr :=
  lines.take i ++ [x] ++ lines.drop i

/-- The inner scan of `replaceAddressField` (after the header line): the
first non-empty, non-`URI:` line matching the address pattern. -/
def findAddressAfter : List JStr → Option Nat
  | [] => none
  | l :: ls =>
    if trim l ≠ [] ∧ ¬ (js "URI:").isPrefixOf l ∧ addressLinePattern (trim l) then
      some 0
    else (findAddressAfter ls).map (· + 1)

/-- The scan of `replaceStatementField`: after an address-looking line has
been seen, the first non-empty line not starting with `URI:` (address-
looking lines themselves are never the statement). -/
def statementScan (found : Bool) : List JStr → Option Nat
  | [] => none
  | l :: ls =>
    if addressLinePattern (trim l) then (statementScan true ls).map (· + 1)
    else if found ∧ trim l ≠ [] ∧ ¬ (js "URI:").isPrefixOf l then some 0
    else (statementScan found ls).map (· + 1)

/-- `replaceDomainField`: rewrite the first line containing the header
marker (the loop-with-break is a first-match search). -/
def replaceDomainField (lines : List JStr) (newValue : JStr) : JStr :=
  match lines.findIdx? (fun l => jincludes wantsMarker l) with
  | none => jjoin '\n' lines
  | some i => jjoin '\n' (lines.set i (newValue ++ wantsMarker))

/-- `replaceAddressField`: the first address-looking line after the first
header-marker line. -/
def replaceAddressField (lines : List JStr) (newValue : JStr) : JStr :=
  match lines.findIdx? (fun l => jincludes wantsMarker l) with
  | none => jjoin '\n' lines
  | some i =>
    match findAddressAfter (lines.drop (i + 1)) with
    | none => jjoin '\n' lines
    | some k => jjoin '\n' (lines.set (i + 1 + k) newValue)

/-- `replaceStatementField`. -/
def replaceStatementField (lines : List JStr) (newValue : JStr) : JStr :=
  match statementScan false lines with
  | none => jjoin '\n' lines
  | some i => jjoin '\n' (lines.set i newValue)

/-- `replaceFieldWithPrefix`: rewrite the first line starting with the
field's prefix, keeping the prefix. -/
def replaceFieldWithPrefix (lines : List JStr) (pre newValue : JStr) : JStr :=
  match lines.findIdx? (fun l => pre.isPrefixOf l) with
  | none => jjoin '\n' lines
  | some i => jjoin '\n' (lines.set i (pre ++ newValue))

/-- `replaceExpirationTimeField`: rewrite in place, or insert directly
after the `Issued At:` line when the field does not exist yet. -/
def replaceExpirationTimeField (lines : List JStr) (newValue : JStr) : JStr :=
  match lines.findIdx? (fun l => (js "Expiration Time: ").isPrefixOf l) with
  | some i => jjoin '\n' (lines.set i (js "Expiration Time: " ++ newValue))
  | none =>
    match lines.findIdx? (fun l => (js "Issued At: ").isPrefixOf l) with
    | some i => jjoin '\n' (jsplice (i + 1) (js "Expiration Time: " ++ newValue) lines)
    | none => jjoin '\n' lines

/-- `FieldReplacer.replaceField`: split, dispatch on the field name, join;
an unknown field name returns the input unchanged. -/
def replaceField (originalMessage : JStr) (fieldName : String) (newValue : JStr) :
    JStr :=
  let lines := jsplit '\n' originalMessage
  if fieldName = "domain" then replaceDomainField lines newValue
  else if fieldName = "address" then replaceAddressField lines newValue
  else if fieldName = "statement" then replaceStatementField lines newValue
  else if fieldName = "uri" then replaceFieldWithPrefix lines (js "URI: ") newValue
  else if fieldName = "version" then replaceFieldWithPrefix lines (js "Version: ") newValue
  else if fieldName = "chainId" then replaceFieldWithPrefix lines (js "Chain ID: ") newValue
  else if fieldName = "nonce" then replaceFieldWithPrefix lines (js "Nonce: ") newValue
  else if fieldName = "issuedAt" then replaceFieldWithPrefix lines (js "Issued At: ") newValue
  else if fieldName = "expirationTime" then replaceExpirationTimeField lines newValue
  else if fieldName = "notBefore" then replaceFieldWithPrefix lines (js "Not Before: ") newValue
  else if fieldName = "requestId" then replaceFieldWithPrefix lines (js "Request ID: ") newValue
  else originalMessage

/-- `toChecksumAddress` (the source's simplified positional checksum). -/
def toChecksumAddress (address : JStr) : JStr :=
  if ¬ (js "0x").isPrefixOf address ∨ address.length ≠ 42 then address
  else
    let hex := (address.drop 2).map Char.toLower
    let checksum := hex.enum.map fun p =>
      if p.2.isDigit then p.2
      else if p.1 % 2 = 0 then p.2.toUpper else p.2.toLower
    js "0x" ++ checksum

/-- Alphanumeric character (the `[a-zA-Z0-9]` class on ASCII). -/
def isAlnum (c : Char) : Bool :=
  c.isDigit || ('a' ≤ c && c ≤ 'z') || ('A' ≤ c && c ≤ 'Z')

/-- `fixAddressFormat`: add a missing `0x` to a bare 40-hex-digit address;
`none` models the `null` result. -/
def fixAddressFormat (address : JStr) : Option JStr :=
  let a := trim address
  if ¬ (js "0x").isPrefixOf a ∧ a.length = 40 ∧ a.all isHexDigit then
    some (js "0x" ++ a)
  else if (js "0x").isPrefixOf a ∧ (a.drop 2).length = 40 ∧ (a.drop 2).all isHexDigit then
    some a
  else none

/-- The nonce alphabet of `generateSecureNonce` (62 alphanumerics). -/
def nonceAlphabet : JStr :=
  js "ABCDEFGHIJKLMNOPQRSTUVWXYZabcdefghijklmnopqrstuvwxyz0123456789"

/-- `generateSecureNonce`: 16 draws from the alphabet; the 16 results of
`Math.floor(Math.random() * characters.length)` are supplied explicitly so
that claims quantify over every possible outcome. -/
def generateSecureNonce (pick : Fin 16 → Fin 62) : JStr :=
  List.ofFn fun i : Fin 16 => nonceAlphabet.getD (pick i).val 'A'

/-- The recursion behind `value.replace(/[\r\n]+/g, ' ')`: each maximal
run of line-break characters becomes one space. -/
def collapseBreaksGo (prevBreak : Bool) : JStr → JStr
  | [] => []
  | c :: cs =>
    if c = '\n' ∨ c = '\r' then
      (if prevBreak then [] else [' ']) ++ collapseBreaksGo true cs
    else c :: collapseBreaksGo false cs

/-- `value.replace(/[\r\n]+/g, ' ')`. -/
def collapseBreaks (s : JStr) : JStr := collapseBreaksGo false s

/-- The scan behind JavaScript `s.replace(pat, rep)` for a plain-string
pattern: replace the first occurrence only. -/
def jsReplaceGo (pat rep : JStr) : JStr → JStr
  | [] => []
  | c :: cs =>
    if pat.isPrefixOf (c :: cs) then rep ++ (c :: cs).drop pat.length
    else c :: jsReplaceGo pat rep cs

/-- JavaScript `s.replace(pat, rep)` for plain strings. -/
def jsReplaceOnce (pat rep s : JStr) : JStr :=
  if pat = [] then rep ++ s else jsReplaceGo pat rep s

/-- The impure ingredients of `applyFieldFix`, supplied by the caller:
the clock reading, the behaviour of `new Date(...)` timestamp repair, the
expiration synthesis (whose `toISOString()` throws on an invalid date,
modelled by `none`), and the random draws for nonce generation. -/
structure Oracle where
  nowISO : JStr
  tsFix : JStr → Option JStr
  expFix : Option JStr → Option JStr
  pick : Fin 16 → Fin 62

/-- `FieldReplacer.applyFieldFix`: dispatch on the diagnostic's `code`;
a `none` result models a thrown exception (a string method invoked on an
`undefined` field value, or `toISOString()` on an invalid date). -/
def applyFieldFix (o : Oracle) (originalMessage : JStr) (e : ValidationError) :
    Option JStr :=
  let parsed := SiweMessageParser.parse originalMessage
  let fieldValue := getStrField parsed.fields e.field
  if e.code = "ADDRESS_NOT_CHECKSUM" then
    match fieldValue with
    | none => none
    | some v => some (replaceField originalMessage e.field (toChecksumAddress v))
  else if e.code = "ADDRESS_INVALID_FORMAT" then
    match fieldValue with
    | none => none
    | some v => some (replaceField originalMessage e.field ((fixAddressFormat v).getD v))
  else if e.code = "VERSION_REQUIRED" ∨ e.code = "VERSION_INVALID" then
    some (replaceField originalMessage e.field (js "1"))
  else if e.code = "ISSUED_AT_REQUIRED" then
    some (replaceField originalMessage e.field o.nowISO)
  else if e.code = "ISSUED_AT_INVALID_FORMAT" ∨
      e.code = "EXPIRATION_TIME_INVALID_FORMAT" then
    let newValue :=
      match fieldValue with
      | some v => (o.tsFix v).getD v
      | none => js "undefined"
    some (replaceField originalMessage e.field newValue)
  else if e.code = "NONCE_REQUIRED" ∨ e.code = "NONCE_TOO_SHORT" ∨
      e.code = "SECURITY_SHORT_NONCE" ∨ e.code = "NONCE_WEAK_ENTROPY" ∨
      e.code = "SECURITY_WEAK_NONCE_PATTERN" ∨
      e.code = "SECURITY_LOW_NONCE_COMPLEXITY" then
    some (replaceField originalMessage e.field (generateSecureNonce o.pick))
  else if e.code = "URI_INSECURE_SCHEME" then
    match fieldValue with
    | none => none
    | some v =>
      some (replaceField originalMessage e.field
        (jsReplaceOnce (js "http://") (js "https://") v))
  else if e.code = "STATEMENT_LINE_BREAKS" then
    match fieldValue with
    | none => none
    | some v =>
      some (replaceField originalMessage e.field (trim (collapseBreaks v)))
  else if e.code = "SECURITY_NO_EXPIRATION" then
    match o.expFix parsed.fields.issuedAt with
    | none => none
    | some v => some (replaceField originalMessage "expirationTime" v)
  else if e.code = "EXTRA_LINE_BREAK_HEADER_ADDRESS" ∨
      e.code = "EXTRA_LINE_BREAKS_BEFORE_URI" ∨
      e.code = "EXTRA_LINE_BREAKS_BETWEEN_FIELDS" ∨
      e.code = "MISSING_LINE_BREAK_ADDRESS_STATEMENT" ∨
      e.code = "MISSING_LINE_BREAK_STATEMENT_URI" ∨
      e.code = "TRAILING_WHITESPACE" ∨
      e.code = "TOO_MANY_CONSECUTIVE_EMPTY_LINES" then
    some (LineBreakValidator.fixLineBreaks originalMessage)
  else some originalMessage

end Siwe.FieldReplacer

namespace Siwe

/-! ## Concrete fixtures used by the refutations and witnesses -/
/-- A message whose second line is `URI: ` with a trailing space: on the
first pass the line right-trims to the bare `URI:`, which the second pass
classifies as a statement. -/
def lineBreakFixNonIdempotentInput : JStr :=
  js "example.com wants you to sign in with your Ethereum account:\nURI: "

/-- Header, address, exactly two blank lines, required block, no statement. -/
def noStatementTwoBlanks : JStr :=
  js "example.com wants you to sign in with your Ethereum account:\n0x742d35Cc6C4C1Ca5d428d9eE0e9B1E1234567890\n\n\nURI: https://example.com\nVersion: 1\nChain ID: 1\nNonce: abc123defg4567\nIssued At: 2025-08-19T05:06:33.555Z"

/-- The same message with exactly one blank line in that position. -/
def noStatementOneBlank : JStr :=
  js "example.com wants you to sign in with your Ethereum account:\n0x742d35Cc6C4C1Ca5d428d9eE0e9B1E1234567890\n\nURI: https://example.com\nVersion: 1\nChain ID: 1\nNonce: abc123defg4567\nIssued At: 2025-08-19T05:06:33.555Z"

/-- The same message with three blank lines in that position. -/
def noStatementThreeBlanks : JStr :=
  js "example.com wants you to sign in with your Ethereum account:\n0x742d35Cc6C4C1Ca5d428d9eE0e9B1E1234567890\n\n\n\nURI: https://example.com\nVersion: 1\nChain ID: 1\nNonce: abc123defg4567\nIssued At: 2025-08-19T05:06:33.555Z"

/-- An otherwise canonical message with one blank line inserted between
the `Issued At:` line and the `Expiration Time:` line. -/
def blankBeforeExpiration : JStr :=
  js "example.com wants you to sign in with your Ethereum account:\n0x742d35Cc6C4C1Ca5d428d9eE0e9B1E1234567890\n\nSign in to our Web3 application.\n\nURI: https://example.com\nVersion: 1\nChain ID: 1\nNonce: abc123defg4567\nIssued At: 2025-08-19T05:06:33.555Z\n\nExpiration Time: 2025-08-19T05:16:33.555Z"

/-- `blankBeforeExpiration` with exactly that blank line removed. -/
def blankBeforeExpirationFixed : JStr :=
  js "example.com wants you to sign in with your Ethereum account:\n0x742d35Cc6C4C1Ca5d428d9eE0e9B1E1234567890\n\nSign in to our Web3 application.\n\nURI: https://example.com\nVersion: 1\nChain ID: 1\nNonce: abc123defg4567\nIssued At: 2025-08-19T05:06:33.555Z\nExpiration Time: 2025-08-19T05:16:33.555Z"

/-- A canonical, fully valid message (the spec's clean-message scenario). -/
def cleanMessage : JStr :=
  js "example.com wants you to sign in with your Ethereum account:\n0x742d35Cc6C4C1Ca5d428d9eE0e9B1E1234567890\n\nSign in to our Web3 application.\n\nURI: https://example.com\nVersion: 1\nChain ID: 1\nNonce: a1B2c3D4e5F6g7H8\nIssued At: 2023-10-31T16:25:24Z"

/-! ## Claim C10 — the isValid invariant -/
/-- The field is set to a non-empty string (the JavaScript condition
`fields[f] !== undefined && fields[f] !== ''`). -/
def FieldSetNonempty (v : Option JStr) : Prop := ∃ s, v = some s ∧ s ≠ []

/-! ## Claim C7 — unknown-code no-op -/
/-- Every `code` the `applyFieldFix` switch dispatches on (field-value
fixes plus the structural delegation codes). -/
def handledFixCodes : List String :=
  ["ADDRESS_NOT_CHECKSUM", "ADDRESS_INVALID_FORMAT",
   "VERSION_REQUIRED", "VERSION_INVALID",
   "ISSUED_AT_REQUIRED", "ISSUED_AT_INVALID_FORMAT",
   "EXPIRATION_TIME_INVALID_FORMAT",
   "NONCE_REQUIRED", "NONCE_TOO_SHORT", "SECURITY_SHORT_NONCE",
   "NONCE_WEAK_ENTROPY", "SECURITY_WEAK_NONCE_PATTERN",
   "SECURITY_LOW_NONCE_COMPLEXITY",
   "URI_INSECURE_SCHEME", "STATEMENT_LINE_BREAKS", "SECURITY_NO_EXPIRATION",
   "EXTRA_LINE_BREAK_HEADER_ADDRESS", "EXTRA_LINE_BREAKS_BEFORE_URI",
   "EXTRA_LINE_BREAKS_BETWEEN_FIELDS", "MISSING_LINE_BREAK_ADDRESS_STATEMENT",
   "MISSING_LINE_BREAK_STATEMENT_URI", "TRAILING_WHITESPACE",
   "TOO_MANY_CONSECUTIVE_EMPTY_LINES"]

/-! ## Claim C6 — parser totality and error codes -/
/-- The complete set of codes the parser can attach to a parse failure. -/
def allowedParseCodes : List String :=
  ["INVALID_HEADER", "MISSING_ADDRESS", "MISSING_URI", "MISSING_VERSION",
   "MISSING_CHAINID", "MISSING_NONCE", "MISSING_ISSUEDAT"]

/-- A well-formed parse error: a recognised code, severity `error`. -/
def ErrOk (e : ValidationError) : Prop :=
  e.code ∈ allowedParseCodes ∧ e.severity = "error"

/-- The fixable nonce-security codes `applyFieldFix` regenerates for. -/
def nonceSecurityFixCodes : List String :=
  ["NONCE_REQUIRED", "NONCE_TOO_SHORT", "SECURITY_SHORT_NONCE",
   "NONCE_WEAK_ENTROPY", "SECURITY_WEAK_NONCE_PATTERN",
   "SECURITY_LOW_NONCE_COMPLEXITY"]

/-- The regex `^Nonce: [a-zA-Z0-9]{8,}$` on a whole line. -/
def nonceLineOk (l : JStr) : Bool :=
  (js "Nonce: ").isPrefixOf l && decide (8 ≤ (l.drop 7).length) &&
    (l.drop 7).all FieldReplacer.isAlnum

/-- A concrete oracle for witnesses: a fixed clock, a timestamp fixer and
expiration synthesizer that fail, and random draws that always pick the
first alphabet character. -/
def sampleOracle : FieldReplacer.Oracle :=
  { nowISO := js "2024-01-01T00:00:00.000Z",
    tsFix := fun _ => none,
    expFix := fun _ => none,
    pick := fun _ => 0 }

/-- A concrete fixable nonce-security diagnostic. -/
def shortNonceDiag : ValidationError :=
  { type := "security", field := "nonce", line := 9, column := 1,
    message := "Nonce is too short for adequate security",
    severity := "warning", fixable := true, code := "SECURITY_SHORT_NONCE" }

/-! ## Round-trip infrastructure (claims C2 and C9) -/
/-- A required field value as `generateMessage` needs it for a faithful
round trip: set, non-empty (JavaScript truthiness) and line-feed free. -/
def OkReq (v : Option JStr) : Prop :=
  match v with
  | some s => s ≠ [] ∧ '\n' ∉ s
  | none => False

/-- An optional field value: absent, or non-empty and line-feed free. -/
def OkOpt (v : Option JStr) : Prop :=
  match v with
  | some s => s ≠ [] ∧ '\n' ∉ s
  | none => True

/-- A resources value: absent, or a non-empty list of line-feed-free
entries. -/
def OkRes (v : Option (List JStr)) : Prop :=
  match v with
  | some rs => rs ≠ [] ∧ ∀ r ∈ rs, '\n' ∉ r
  | none => True

instance (v : Option JStr) : Decidable (OkReq v) :=
  match v with
  | some s => (inferInstance : Decidable (s ≠ [] ∧ '\n' ∉ s))
  | none => (inferInstance : Decidable False)

instance (v : Option JStr) : Decidable (OkOpt v) :=
  match v with
  | some s => (inferInstance : Decidable (s ≠ [] ∧ '\n' ∉ s))
  | none => (inferInstance : Decidable True)

instance (v : Option (List JStr)) : Decidable (OkRes v) :=
  match v with
  | some rs => (inferInstance : Decidable (rs ≠ [] ∧ ∀ r ∈ rs, '\n' ∉ r))
  | none => (inferInstance : Decidable True)

/-- Well-formedness of a field map for the round-trip law, except for the
statement-prefix condition: all required fields set, non-empty and
line-feed free; the domain free of the characters the header regex dot
cannot match; the address invariant under trimming; optional values
non-empty and line-feed free when set. -/
def WellFormedBase (f : SiweMessageFields) : Prop :=
  OkReq f.domain ∧ '\r' ∉ f.domain.getD [] ∧
  OkReq f.address ∧ trim (f.address.getD []) = f.address.getD [] ∧
  OkOpt f.statement ∧
  OkReq f.uri ∧ OkReq f.version ∧ OkReq f.chainId ∧ OkReq f.nonce ∧
  OkReq f.issuedAt ∧
  OkOpt f.expirationTime ∧ OkOpt f.notBefore ∧ OkOpt f.requestId ∧
  OkRes f.resources

/-- Full well-formedness: additionally the statement (when set) does not
begin with the reserved prefix `URI:`. -/
def WellFormed (f : SiweMessageFields) : Prop :=
  WellFormedBase f ∧ (js "URI:").isPrefixOf (f.statement.getD []) = false

instance (f : SiweMessageFields) : Decidable (WellFormedBase f) := by
  unfold WellFormedBase
  infer_instance

instance (f : SiweMessageFields) : Decidable (WellFormed f) := by
  unfold WellFormed
  infer_instance

/-- A field map whose statement begins with the reserved `URI: ` prefix. -/
def statementUriFields : SiweMessageFields :=
  { domain := some (js "example.com"),
    address := some (js "0x742d35Cc6C4C1Ca5d428d9eE0e9B1E1234567890"),
    statement := some (js "URI: evil"),
    uri := some (js "https://example.com"),
    version := some (js "1"),
    chainId := some (js "1"),
    nonce := some (js "a1B2c3D4e5F6g7H8"),
    issuedAt := some (js "2023-10-31T16:25:24Z") }

/-- A well-formed field map exercising a statement, an optional field and
a resources list. -/
def sampleWellFormedFields : SiweMessageFields :=
  { domain := some (js "example.com"),
    address := some (js "0x742d35Cc6C4C1Ca5d428d9eE0e9B1E1234567890"),
    statement := some (js "Sign in to our Web3 application."),
    uri := some (js "https://example.com"),
    version := some (js "1"),
    chainId := some (js "1"),
    nonce := some (js "a1B2c3D4e5F6g7H8"),
    issuedAt := some (js "2023-10-31T16:25:24Z"),
    expirationTime := some (js "2023-10-31T16:35:24Z"),
    resources := some [js "https://example.com/a", js "ipfs://QmXx"] }

end Siwe

namespace Siwe.FieldReplacer
open Siwe

/-! ## Claim C1 — targeted replacement (frame property of applyFieldFix) -/
/-- The sixteen field-targeted codes `applyFieldFix` dispatches on (the
seven structural line-break/whitespace codes excluded). -/
def fieldFixCodes : List String :=
  ["ADDRESS_NOT_CHECKSUM", "ADDRESS_INVALID_FORMAT", "VERSION_REQUIRED",
   "VERSION_INVALID", "ISSUED_AT_REQUIRED", "ISSUED_AT_INVALID_FORMAT",
   "EXPIRATION_TIME_INVALID_FORMAT", "NONCE_REQUIRED", "NONCE_TOO_SHORT",
   "SECURITY_SHORT_NONCE", "NONCE_WEAK_ENTROPY", "SECURITY_WEAK_NONCE_PATTERN",
   "SECURITY_LOW_NONCE_COMPLEXITY", "URI_INSECURE_SCHEME",
   "STATEMENT_LINE_BREAKS", "SECURITY_NO_EXPIRATION"]

/-- The line index that `replaceField` rewrites for a given field name:
the field's own locator applied to the split lines. -/
def fieldLineOf (lines : List JStr) (fieldName : String) : Option Nat :=
  if fieldName = "domain" then
    lines.findIdx? (fun l => jincludes wantsMarker l)
  else if fieldName = "address" then
    match lines.findIdx? (fun l => jincludes wantsMarker l) with
    | none => none
    | some i => (findAddressAfter (lines.drop (i + 1))).map (fun k => i + 1 + k)
  else if fieldName = "statement" then statementScan false lines
  else if fieldName = "uri" then
    lines.findIdx? (fun l => (js "URI: ").isPrefixOf l)
  else if fieldName = "version" then
    lines.findIdx? (fun l => (js "Version: ").isPrefixOf l)
  else if fieldName = "chainId" then
    lines.findIdx? (fun l => (js "Chain ID: ").isPrefixOf l)
  else if fieldName = "nonce" then
    lines.findIdx? (fun l => (js "Nonce: ").isPrefixOf l)
  else if fieldName = "issuedAt" then
    lines.findIdx? (fun l => (js "Issued At: ").isPrefixOf l)
  else if fieldName = "expirationTime" then
    lines.findIdx? (fun l => (js "Expiration Time: ").isPrefixOf l)
  else if fieldName = "notBefore" then
    lines.findIdx? (fun l => (js "Not Before: ").isPrefixOf l)
  else if fieldName = "requestId" then
    lines.findIdx? (fun l => (js "Request ID: ").isPrefixOf l)
  else none

/-- The frame of one field fix on a message: the output is the original
string itself, or the original lines with exactly the line located for the
target field replaced, or — expiration synthesis only — the original lines
kept intact with one new line inserted directly after the `Issued At:`
line. Every line of the input other than the located one reappears
byte-identically in the output. -/
def FrameResult (m : JStr) (fieldName : String) (m' : JStr) : Prop :=
  m' = m ∨
  (∃ i x, fieldLineOf (jsplit '\n' m) fieldName = some i ∧
    m' = jjoin '\n' ((jsplit '\n' m).set i x)) ∨
  (fieldName = "expirationTime" ∧ ∃ i x,
    (jsplit '\n' m).findIdx? (fun l => (js "Issued At: ").isPrefixOf l) = some i ∧
    m' = jjoin '\n' (jsplice (i + 1) x (jsplit '\n' m)))

end Siwe.FieldReplacer

/-- A concrete fixable version diagnostic. -/
def versionInvalidDiag : Siwe.ValidationError :=
  { type := "format", field := "version", line := 1, column := 1,
    message := "Invalid version", severity := "error", fixable := true,
    code := "VERSION_INVALID" }

/-! ## Theorems -/

namespace Siwe

/-- Segments produced by `jsplit` never contain the separator. -/
theorem jsplit_not_mem (sep : Char) (s : JStr) :
    ∀ l ∈ jsplit sep s, sep ∉ l := by
  induction s with
  | nil =>
    intro l hl
    simp [jsplit] at hl
    simp [hl]
  | cons c cs ih =>
    intro l hl
    by_cases h : c = sep
    · simp [jsplit, h] at hl
      rcases hl with hl | hl
      · simp [hl]
      · exact ih l hl
    · simp only [jsplit, if_neg h] at hl
      rcases hsplit : jsplit sep cs with _ | ⟨hd, tl⟩
      · simp [hsplit] at hl
        intro hmem
        rcases hl with rfl
        simp at hmem
        exact h hmem.symm
      · rw [hsplit] at hl
        rcases List.mem_cons.mp hl with rfl | hl
        · intro hmem
          rcases List.mem_cons.mp hmem with rfl | hmem
          · exact h rfl
          · exact ih hd (by simp [hsplit]) hmem
        · exact ih l (by simp [hsplit, hl])

/-- `jsplit` never returns the empty list of segments. -/
theorem jsplit_ne_nil (sep : Char) (s : JStr) : jsplit sep s ≠ [] := by
  induction s with
  | nil => simp [jsplit]
  | cons c cs ih =>
    by_cases h : c = sep
    · simp [jsplit, h]
    · simp only [jsplit, if_neg h]
      rcases hsplit : jsplit sep cs with _ | ⟨hd, tl⟩
      · simp
      · simp

/-- Joining the segments of a split restores the original string
(the JavaScript identity `s.split(sep).join(sep) === s`). -/
theorem jjoin_jsplit (sep : Char) (s : JStr) : jjoin sep (jsplit sep s) = s := by
  induction s with
  | nil => simp [jsplit, jjoin]
  | cons c cs ih =>
    by_cases h : c = sep
    · subst h
      simp only [jsplit, if_pos rfl]
      rcases hsplit : jsplit c cs with _ | ⟨hd, tl⟩
      · exact absurd hsplit (jsplit_ne_nil c cs)
      · rw [hsplit] at ih
        simp [jjoin, ih]
    · simp only [jsplit, if_neg h]
      rcases hsplit : jsplit sep cs with _ | ⟨hd, tl⟩
      · exact absurd hsplit (jsplit_ne_nil sep cs)
      · rw [hsplit] at ih
        rcases tl with _ | ⟨t2, tl2⟩
        · simp [jjoin] at ih
          simp [jjoin, ih]
        · simp [jjoin] at ih ⊢
          simp [ih]

/-- Splitting a newline-free string yields that single segment. -/
theorem jsplit_no_sep (sep : Char) (s : JStr) (h : sep ∉ s) :
    jsplit sep s = [s] := by
  induction s with
  | nil => simp [jsplit]
  | cons c cs ih =>
    have hc : c ≠ sep := fun hc => h (by simp [hc])
    have hcs : sep ∉ cs := fun hm => h (by simp [hm])
    simp only [jsplit, if_neg hc, ih hcs]

/-- Splitting `s ++ sep :: w` for a separator-free `s` peels off `s` as the
first segment. -/
theorem jsplit_append (sep : Char) (s w : JStr) (h : sep ∉ s) :
    jsplit sep (s ++ sep :: w) = s :: jsplit sep w := by
  induction s with
  | nil => simp [jsplit]
  | cons c cs ih =>
    have hc : c ≠ sep := fun hc => h (by simp [hc])
    have hcs : sep ∉ cs := fun hm => h (by simp [hm])
    simp only [List.cons_append, jsplit, if_neg hc, List.append_eq, ih hcs]

/-- Splitting the join of newline-free segments restores the segments. -/
theorem jsplit_jjoin (sep : Char) (L : List JStr) (hne : L ≠ [])
    (h : ∀ l ∈ L, sep ∉ l) : jsplit sep (jjoin sep L) = L := by
  induction L with
  | nil => exact absurd rfl hne
  | cons a L ih =>
    rcases L with _ | ⟨b, L'⟩
    · simp [jjoin, jsplit_no_sep sep a (h a (by simp))]
    · have ha : sep ∉ a := h a (by simp)
      have hrest : ∀ l ∈ b :: L', sep ∉ l := fun l hl => h l (by simp [hl])
      simp only [jjoin, jsplit_append sep a _ ha, ih (by simp) hrest]

end Siwe

/-! ## Claim C3 — idempotent repair -/
/-- Claim C3 (code bug): the spec requires
`fixLineBreaks (fixLineBreaks x) = fixLineBreaks x` for all `x`, but the
code violates it: on a message whose second line is `URI: ` with a
trailing space, one application yields a bare `URI:` line (classified as a
URI anchor from the raw line, then re-emitted as plain content); the next
application classifies that line as a statement and appends a blank line
after it, so applying the fix twice differs from applying it once. -/
theorem fixLineBreaks_not_idempotent_on_bare_uri_line :
    Siwe.LineBreakValidator.fixLineBreaks
        (Siwe.LineBreakValidator.fixLineBreaks Siwe.lineBreakFixNonIdempotentInput) ≠
      Siwe.LineBreakValidator.fixLineBreaks Siwe.lineBreakFixNonIdempotentInput := by
  decide

/-! ## Claim C4 — no-statement spacing -/
/-- Claim C4 (code bug): the spec (and the repository's own tests) require
the two-blank-line form with no statement to validate cleanly, the
one-blank form to yield `MISSING_LINE_BREAK_NO_STATEMENT` with a message
stating "expected 2", and the three-blank form to yield
`EXTRA_LINE_BREAKS_BEFORE_URI` with "expected 2".  The code instead treats
one blank line as canonical: two blanks are reported as
`EXTRA_LINE_BREAKS_BEFORE_URI` with "expected 1", one blank yields no
diagnostic at all (and no `MISSING_LINE_BREAK_NO_STATEMENT` code exists in
the implementation), and three blanks say "expected 1". -/
theorem validateLineBreaks_no_statement_behaviour :
    (Siwe.LineBreakValidator.validateLineBreaks Siwe.noStatementTwoBlanks).map
        (fun e => (e.code, e.message)) =
      [("EXTRA_LINE_BREAKS_BEFORE_URI",
        "Extra empty lines before URI field (found 2, expected 1)")] ∧
    Siwe.LineBreakValidator.validateLineBreaks Siwe.noStatementOneBlank = [] ∧
    (Siwe.LineBreakValidator.validateLineBreaks Siwe.noStatementThreeBlanks).map
        (fun e => (e.code, e.message)) =
      [("EXTRA_LINE_BREAKS_BEFORE_URI",
        "Extra empty lines before URI field (found 3, expected 1)"),
       ("TOO_MANY_CONSECUTIVE_EMPTY_LINES",
        "Too many consecutive empty lines (3 found)")] := by
  refine ⟨by decide, by decide, by decide⟩

/-! ## Claim C5 — optional-field spacing -/
/-- Claim C5 (code bug): the spec (and the repository's own tests) require
a blank line between `Issued At:` and `Expiration Time:` to yield
`EXTRA_LINE_BREAKS_BEFORE_OPTIONAL_FIELD`; the implementation has no such
check (or code) and returns no diagnostic at all for this message.  The
second half of the claim does hold: `fixLineBreaks` removes exactly that
blank line and changes nothing else. -/
theorem validateLineBreaks_optional_field_behaviour :
    Siwe.LineBreakValidator.validateLineBreaks Siwe.blankBeforeExpiration = [] ∧
    Siwe.LineBreakValidator.fixLineBreaks Siwe.blankBeforeExpiration =
      Siwe.blankBeforeExpirationFixed := by
  refine ⟨by decide, by decide⟩


namespace Siwe

theorem fieldSetNonempty_iff (v : Option JStr) :
    (v.isSome = true ∧ ¬ v.getD [] = []) ↔ FieldSetNonempty v := by
  cases v <;> simp [FieldSetNonempty]

theorem getStrField_domain (f : SiweMessageFields) :
    getStrField f "domain" = f.domain := rfl

theorem getStrField_address (f : SiweMessageFields) :
    getStrField f "address" = f.address := rfl

theorem getStrField_uri (f : SiweMessageFields) :
    getStrField f "uri" = f.uri := rfl

theorem getStrField_version (f : SiweMessageFields) :
    getStrField f "version" = f.version := rfl

theorem getStrField_chainId (f : SiweMessageFields) :
    getStrField f "chainId" = f.chainId := rfl

theorem getStrField_nonce (f : SiweMessageFields) :
    getStrField f "nonce" = f.nonce := rfl

theorem getStrField_issuedAt (f : SiweMessageFields) :
    getStrField f "issuedAt" = f.issuedAt := rfl

theorem hasRequiredFields_iff (f : SiweMessageFields) :
    SiweMessageParser.hasRequiredFields f = true ↔
      (FieldSetNonempty f.domain ∧ FieldSetNonempty f.address ∧
       FieldSetNonempty f.uri ∧ FieldSetNonempty f.version ∧
       FieldSetNonempty f.chainId ∧ FieldSetNonempty f.nonce ∧
       FieldSetNonempty f.issuedAt) := by
  simp only [SiweMessageParser.hasRequiredFields, SiweMessageParser.REQUIRED_FIELDS,
    List.all_cons, List.all_nil, Bool.and_eq_true, Bool.and_true,
    getStrField_domain, getStrField_address, getStrField_uri, getStrField_version,
    getStrField_chainId, getStrField_nonce, getStrField_issuedAt,
    decide_eq_true_eq, ne_eq, fieldSetNonempty_iff]

end Siwe

/-- Claim C10 (confirmed): for every input string `m`, `parse m` reports
`isValid = true` exactly when `parseErrors` is empty and all seven
required fields (domain, address, uri, version, chainId, nonce, issuedAt)
are set to non-empty values; in particular a structurally parseable
message missing a required value is never valid. -/
theorem parse_isValid_iff (m : Siwe.JStr) :
    (Siwe.SiweMessageParser.parse m).isValid = true ↔
      ((Siwe.SiweMessageParser.parse m).parseErrors = [] ∧
       Siwe.FieldSetNonempty (Siwe.SiweMessageParser.parse m).fields.domain ∧
       Siwe.FieldSetNonempty (Siwe.SiweMessageParser.parse m).fields.address ∧
       Siwe.FieldSetNonempty (Siwe.SiweMessageParser.parse m).fields.uri ∧
       Siwe.FieldSetNonempty (Siwe.SiweMessageParser.parse m).fields.version ∧
       Siwe.FieldSetNonempty (Siwe.SiweMessageParser.parse m).fields.chainId ∧
       Siwe.FieldSetNonempty (Siwe.SiweMessageParser.parse m).fields.nonce ∧
       Siwe.FieldSetNonempty (Siwe.SiweMessageParser.parse m).fields.issuedAt) := by
  have hdef : (Siwe.SiweMessageParser.parse m).isValid =
      ((Siwe.SiweMessageParser.parse m).parseErrors.isEmpty &&
        Siwe.SiweMessageParser.hasRequiredFields
          (Siwe.SiweMessageParser.parse m).fields) := rfl
  rw [hdef, Bool.and_eq_true, List.isEmpty_iff, Siwe.hasRequiredFields_iff]

/-- Claim C7 (confirmed): for every oracle, message and diagnostic whose
`code` is none of the codes `applyFieldFix` dispatches on, the fixer
returns the input string unchanged and does not throw. -/
theorem applyFieldFix_unknown_code_noop (o : Siwe.FieldReplacer.Oracle)
    (m : Siwe.JStr) (d : Siwe.ValidationError)
    (h : d.code ∉ Siwe.handledFixCodes) :
    Siwe.FieldReplacer.applyFieldFix o m d = some m := by
  have hne : ∀ c, c ∈ Siwe.handledFixCodes → ¬ d.code = c :=
    fun c hc he => h (he ▸ hc)
  simp [Siwe.FieldReplacer.applyFieldFix,
    hne "ADDRESS_NOT_CHECKSUM" (by decide),
    hne "ADDRESS_INVALID_FORMAT" (by decide),
    hne "VERSION_REQUIRED" (by decide),
    hne "VERSION_INVALID" (by decide),
    hne "ISSUED_AT_REQUIRED" (by decide),
    hne "ISSUED_AT_INVALID_FORMAT" (by decide),
    hne "EXPIRATION_TIME_INVALID_FORMAT" (by decide),
    hne "NONCE_REQUIRED" (by decide),
    hne "NONCE_TOO_SHORT" (by decide),
    hne "SECURITY_SHORT_NONCE" (by decide),
    hne "NONCE_WEAK_ENTROPY" (by decide),
    hne "SECURITY_WEAK_NONCE_PATTERN" (by decide),
    hne "SECURITY_LOW_NONCE_COMPLEXITY" (by decide),
    hne "URI_INSECURE_SCHEME" (by decide),
    hne "STATEMENT_LINE_BREAKS" (by decide),
    hne "SECURITY_NO_EXPIRATION" (by decide),
    hne "EXTRA_LINE_BREAK_HEADER_ADDRESS" (by decide),
    hne "EXTRA_LINE_BREAKS_BEFORE_URI" (by decide),
    hne "EXTRA_LINE_BREAKS_BETWEEN_FIELDS" (by decide),
    hne "MISSING_LINE_BREAK_ADDRESS_STATEMENT" (by decide),
    hne "MISSING_LINE_BREAK_STATEMENT_URI" (by decide),
    hne "TRAILING_WHITESPACE" (by decide),
    hne "TOO_MANY_CONSECUTIVE_EMPTY_LINES" (by decide)]

/-- Witness for claim C7 at a concrete unknown code. -/
theorem applyFieldFix_unknown_code_noop_witness :
    ({ type := "format", field := "domain", line := 1, column := 1,
       message := "", severity := "error", fixable := false,
       code := "DOMAIN_INVALID" } : Siwe.ValidationError).code ∉
        Siwe.handledFixCodes ∧
    Siwe.FieldReplacer.applyFieldFix
        { nowISO := Siwe.js "2024-01-01T00:00:00.000Z",
          tsFix := fun _ => none, expFix := fun _ => none, pick := fun _ => 0 }
        Siwe.cleanMessage
        { type := "format", field := "domain", line := 1, column := 1,
          message := "", severity := "error", fixable := false,
          code := "DOMAIN_INVALID" } = some Siwe.cleanMessage :=
  ⟨by decide, applyFieldFix_unknown_code_noop _ _ _ (by decide)⟩


namespace Siwe
namespace SiweMessageParser

theorem headerStep_err (st : PState) :
    ∀ e ∈ (headerStep st).parseErrors, e ∈ st.parseErrors ∨ ErrOk e := by
  rcases st with ⟨flds, errs, rest, idx⟩
  rcases rest with _ | ⟨l, ls⟩
  · intro e he
    exact Or.inl he
  · intro e he
    rcases hm : matchHeader l with _ | d <;> simp [headerStep, hm] at he
    · rcases he with he | he
      · exact Or.inl he
      · rw [he]
        refine Or.inr ⟨?_, rfl⟩
        show "INVALID_HEADER" ∈ allowedParseCodes
        decide
    · exact Or.inl he

theorem addressStep_err (st : PState) :
    ∀ e ∈ (addressStep st).parseErrors, e ∈ st.parseErrors ∨ ErrOk e := by
  rcases st with ⟨flds, errs, rest, idx⟩
  rcases rest with _ | ⟨l, ls⟩ <;> intro e he
  · simp [addressStep] at he
    rcases he with he | he
    · exact Or.inl he
    · rw [he]
      refine Or.inr ⟨?_, rfl⟩
      show "MISSING_ADDRESS" ∈ allowedParseCodes
      decide
  · by_cases ht : trim l ≠ [] <;> simp [addressStep, ht] at he
    · exact Or.inl he
    · rcases he with he | he
      · exact Or.inl he
      · rw [he]
        refine Or.inr ⟨?_, rfl⟩
        show "MISSING_ADDRESS" ∈ allowedParseCodes
        decide

theorem skipEmptyStep_err (st : PState) :
    ∀ e ∈ (skipEmptyStep st).parseErrors, e ∈ st.parseErrors ∨ ErrOk e := by
  rcases st with ⟨flds, errs, rest, idx⟩
  rcases rest with _ | ⟨l, ls⟩ <;> intro e he
  · exact Or.inl he
  · by_cases hl : l = ([] : JStr) <;> simp [skipEmptyStep, hl] at he <;>
      exact Or.inl he

theorem statementStep_err (st : PState) :
    ∀ e ∈ (statementStep st).parseErrors, e ∈ st.parseErrors ∨ ErrOk e := by
  rcases st with ⟨flds, errs, rest, idx⟩
  rcases rest with _ | ⟨l, ls⟩ <;> intro e he
  · exact Or.inl he
  · by_cases hc : l ≠ [] ∧ ¬ (js "URI:").isPrefixOf l
    · simp only [statementStep, if_pos hc] at he
      rcases skipEmptyStep_err _ e he with h | h
      · exact Or.inl h
      · exact Or.inr h
    · simp only [statementStep, if_neg hc] at he
      exact Or.inl he

theorem requiredFieldStep_err (pre : JStr) (name : String)
    (hname : ("MISSING_" ++ jsToUpper name) ∈ allowedParseCodes) (st : PState) :
    ∀ e ∈ (requiredFieldStep pre name st).parseErrors,
      e ∈ st.parseErrors ∨ ErrOk e := by
  rcases st with ⟨flds, errs, rest, idx⟩
  rcases rest with _ | ⟨l, ls⟩ <;> intro e he
  · simp [requiredFieldStep] at he
    rcases he with he | he
    · exact Or.inl he
    · rw [he]
      exact Or.inr ⟨hname, rfl⟩
  · by_cases hp : pre.isPrefixOf l <;> simp [requiredFieldStep, hp] at he
    · exact Or.inl he
    · rcases he with he | he
      · exact Or.inl he
      · rw [he]
        exact Or.inr ⟨hname, rfl⟩

theorem optionalFieldStep_err (pre : JStr) (name : String) (st : PState) :
    ∀ e ∈ (optionalFieldStep pre name st).parseErrors,
      e ∈ st.parseErrors ∨ ErrOk e := by
  rcases st with ⟨flds, errs, rest, idx⟩
  rcases rest with _ | ⟨l, ls⟩ <;> intro e he
  · exact Or.inl he
  · by_cases hp : pre.isPrefixOf l <;> simp [optionalFieldStep, hp] at he <;>
      exact Or.inl he

theorem resourcesStep_err (st : PState) :
    ∀ e ∈ (resourcesStep st).parseErrors, e ∈ st.parseErrors ∨ ErrOk e := by
  rcases st with ⟨flds, errs, rest, idx⟩
  rcases rest with _ | ⟨l, ls⟩ <;> intro e he
  · exact Or.inl he
  · by_cases hl : l = js "Resources:"
    · by_cases hr : (takeResources ls).1 ≠ []
      · simp [resourcesStep, hl, hr] at he
        exact Or.inl he
      · simp [resourcesStep, hl, hr] at he
        exact Or.inl he
    · simp [resourcesStep, hl] at he
      exact Or.inl he

/-- Chain a step lemma through an already-established invariant. -/
theorem step_mono (f : PState → PState)
    (hf : ∀ st, ∀ e ∈ (f st).parseErrors, e ∈ st.parseErrors ∨ ErrOk e)
    (st : PState) (h : ∀ e ∈ st.parseErrors, ErrOk e) :
    ∀ e ∈ (f st).parseErrors, ErrOk e :=
  fun e he => (hf st e he).elim (h e) id

theorem parseSteps_errOk (lines : List JStr) :
    ∀ e ∈ (parseSteps lines).parseErrors, ErrOk e := by
  unfold parseSteps
  apply step_mono _ resourcesStep_err
  apply step_mono _ (optionalFieldStep_err _ _)
  apply step_mono _ (optionalFieldStep_err _ _)
  apply step_mono _ (optionalFieldStep_err _ _)
  apply step_mono _ (requiredFieldStep_err _ "issuedAt" (by decide))
  apply step_mono _ (requiredFieldStep_err _ "nonce" (by decide))
  apply step_mono _ (requiredFieldStep_err _ "chainId" (by decide))
  apply step_mono _ (requiredFieldStep_err _ "version" (by decide))
  apply step_mono _ (requiredFieldStep_err _ "uri" (by decide))
  apply step_mono _ statementStep_err
  apply step_mono _ skipEmptyStep_err
  apply step_mono _ addressStep_err
  apply step_mono _ headerStep_err
  intro e he
  simp at he

end SiweMessageParser
end Siwe

/-- Claim C6 (confirmed): `parse` is a total function — it returns a
`ParsedSiweMessage` for every input string (the embedding is a total Lean
function, mirroring the source, whose string operations cannot throw), and
every parse failure it records carries one of the documented codes
(`INVALID_HEADER`, `MISSING_ADDRESS`, `MISSING_<FIELD>`) at severity
`error`. -/
theorem parse_total_and_error_codes (m : Siwe.JStr) :
    (Siwe.SiweMessageParser.parse m).rawMessage = m ∧
    ∀ e ∈ (Siwe.SiweMessageParser.parse m).parseErrors,
      e.code ∈ Siwe.allowedParseCodes ∧ e.severity = "error" :=
  ⟨rfl, fun e he => Siwe.SiweMessageParser.parseSteps_errOk (Siwe.jsplit '\n' m) e he⟩


namespace Siwe

/-! ## Claim C8 — weak-nonce fix -/
/-- A prefix is a prefix of itself extended by anything. -/
theorem isPrefixOf_append_self (p v : JStr) : p.isPrefixOf (p ++ v) = true := by
  induction p with
  | nil => simp [List.isPrefixOf]
  | cons c cs ih => simp [List.isPrefixOf, ih]

theorem nonceAlphabet_alnum :
    ∀ c ∈ FieldReplacer.nonceAlphabet, FieldReplacer.isAlnum c = true := by
  decide

theorem nonceAlphabet_getD_mem :
    ∀ k, k < 62 → FieldReplacer.nonceAlphabet.getD k 'A' ∈ FieldReplacer.nonceAlphabet := by
  decide

theorem generateSecureNonce_length (pick : Fin 16 → Fin 62) :
    (FieldReplacer.generateSecureNonce pick).length = 16 := by
  simp [FieldReplacer.generateSecureNonce]

theorem generateSecureNonce_mem (pick : Fin 16 → Fin 62) :
    ∀ c ∈ FieldReplacer.generateSecureNonce pick,
      c ∈ FieldReplacer.nonceAlphabet := by
  intro c hc
  simp only [FieldReplacer.generateSecureNonce, List.mem_ofFn] at hc
  obtain ⟨i, hi⟩ := hc
  rw [← hi]
  exact nonceAlphabet_getD_mem _ (pick i).isLt

theorem nonceLineOk_of (n : JStr) (hlen : n.length = 16)
    (hmem : ∀ c ∈ n, c ∈ FieldReplacer.nonceAlphabet) :
    nonceLineOk (js "Nonce: " ++ n) = true := by
  have hdrop : (js "Nonce: " ++ n).drop 7 = n := rfl
  have hpre : (js "Nonce: ").isPrefixOf (js "Nonce: " ++ n) = true :=
    isPrefixOf_append_self _ _
  unfold nonceLineOk
  rw [hdrop, hpre, hlen]
  simp [List.all_eq_true]
  intro c hc
  exact nonceAlphabet_alnum c (hmem c hc)

end Siwe

/-- Claim C8 (confirmed): on a message containing a `Nonce: ` line, a
fixable nonce-security diagnostic on field `nonce` (any of the six codes
the fixer regenerates for) makes `applyFieldFix` — for every possible
outcome of the random draws — replace exactly the first `Nonce: ` line
with `Nonce: ` followed by the regenerated nonce, leaving every other line
unchanged; the new line matches `^Nonce: [a-zA-Z0-9]{8,}$`, the nonce
being 16 characters drawn from the 62-character alphanumeric alphabet. -/
theorem applyFieldFix_nonce_regeneration (o : Siwe.FieldReplacer.Oracle)
    (m : Siwe.JStr) (d : Siwe.ValidationError) (i : Nat)
    (hfind : (Siwe.jsplit '\n' m).findIdx?
        (fun l => (Siwe.js "Nonce: ").isPrefixOf l) = some i)
    (hcode : d.code ∈ Siwe.nonceSecurityFixCodes)
    (hfield : d.field = "nonce") :
    Siwe.FieldReplacer.applyFieldFix o m d =
      some (Siwe.jjoin '\n' ((Siwe.jsplit '\n' m).set i
        (Siwe.js "Nonce: " ++ Siwe.FieldReplacer.generateSecureNonce o.pick))) ∧
    Siwe.nonceLineOk
        (Siwe.js "Nonce: " ++ Siwe.FieldReplacer.generateSecureNonce o.pick) = true ∧
    (Siwe.FieldReplacer.generateSecureNonce o.pick).length = 16 ∧
    ∀ c ∈ Siwe.FieldReplacer.generateSecureNonce o.pick,
      c ∈ Siwe.FieldReplacer.nonceAlphabet := by
  obtain ⟨ty, fld, ln, col, msg, sev, fix, sug, code⟩ := d
  simp only [Siwe.nonceSecurityFixCodes, List.mem_cons, List.not_mem_nil,
    or_false] at hcode
  dsimp only at hfield hcode
  subst hfield
  refine ⟨?_,
    Siwe.nonceLineOk_of _ (Siwe.generateSecureNonce_length o.pick)
      (Siwe.generateSecureNonce_mem o.pick),
    Siwe.generateSecureNonce_length o.pick,
    Siwe.generateSecureNonce_mem o.pick⟩
  rcases hcode with h | h | h | h | h | h <;> subst h <;>
    · show some (Siwe.FieldReplacer.replaceFieldWithPrefix
          (Siwe.jsplit '\n' m) (Siwe.js "Nonce: ")
          (Siwe.FieldReplacer.generateSecureNonce o.pick)) = _
      simp only [Siwe.FieldReplacer.replaceFieldWithPrefix, hfind]

/-- Witness for claim C8 at a concrete message, diagnostic and oracle. -/
theorem applyFieldFix_nonce_regeneration_witness :
    (Siwe.jsplit '\n' Siwe.cleanMessage).findIdx?
        (fun l => (Siwe.js "Nonce: ").isPrefixOf l) = some 8 ∧
    Siwe.shortNonceDiag.code ∈ Siwe.nonceSecurityFixCodes ∧
    Siwe.shortNonceDiag.field = "nonce" ∧
    (Siwe.FieldReplacer.applyFieldFix Siwe.sampleOracle Siwe.cleanMessage
          Siwe.shortNonceDiag =
        some (Siwe.jjoin '\n' ((Siwe.jsplit '\n' Siwe.cleanMessage).set 8
          (Siwe.js "Nonce: " ++
            Siwe.FieldReplacer.generateSecureNonce Siwe.sampleOracle.pick))) ∧
      Siwe.nonceLineOk (Siwe.js "Nonce: " ++
        Siwe.FieldReplacer.generateSecureNonce Siwe.sampleOracle.pick) = true ∧
      (Siwe.FieldReplacer.generateSecureNonce Siwe.sampleOracle.pick).length = 16 ∧
      ∀ c ∈ Siwe.FieldReplacer.generateSecureNonce Siwe.sampleOracle.pick,
        c ∈ Siwe.FieldReplacer.nonceAlphabet) :=
  ⟨by decide, by decide, rfl,
    applyFieldFix_nonce_regeneration Siwe.sampleOracle Siwe.cleanMessage
      Siwe.shortNonceDiag 8 (by decide) (by decide) rfl⟩


namespace Siwe
namespace SiweMessageParser

theorem matchHeader_append (d : JStr) (hne : d ≠ [])
    (hn : '\n' ∉ d) (hr : '\r' ∉ d) :
    matchHeader (d ++ headerSuffix) = some d := by
  have hlen : (d ++ headerSuffix).length - headerSuffix.length = d.length := by
    simp
  have hsuf : headerSuffix.isSuffixOf (d ++ headerSuffix) = true := by
    rw [List.isSuffixOf_iff_suffix]
    exact List.suffix_append _ _
  have htake : (d ++ headerSuffix).take d.length = d := List.take_left _ _
  have hall : d.all (fun c => ¬ (c = '\n' ∨ c = '\r')) = true := by
    simp only [List.all_eq_true, decide_eq_true_eq]
    intro c hc
    rintro (rfl | rfl)
    · exact hn hc
    · exact hr hc
  have hpos : 0 < d.length := List.length_pos.mpr hne
  simp only [matchHeader, hlen, htake, hsuf, hall, hpos]
  simp

theorem setStrField_uri (f : SiweMessageFields) (v : JStr) :
    setStrField f "uri" v = { f with uri := some v } := rfl

theorem setStrField_version (f : SiweMessageFields) (v : JStr) :
    setStrField f "version" v = { f with version := some v } := rfl

theorem setStrField_chainId (f : SiweMessageFields) (v : JStr) :
    setStrField f "chainId" v = { f with chainId := some v } := rfl

theorem setStrField_nonce (f : SiweMessageFields) (v : JStr) :
    setStrField f "nonce" v = { f with nonce := some v } := rfl

theorem setStrField_issuedAt (f : SiweMessageFields) (v : JStr) :
    setStrField f "issuedAt" v = { f with issuedAt := some v } := rfl

theorem setStrField_expirationTime (f : SiweMessageFields) (v : JStr) :
    setStrField f "expirationTime" v = { f with expirationTime := some v } := rfl

theorem setStrField_notBefore (f : SiweMessageFields) (v : JStr) :
    setStrField f "notBefore" v = { f with notBefore := some v } := rfl

theorem setStrField_requestId (f : SiweMessageFields) (v : JStr) :
    setStrField f "requestId" v = { f with requestId := some v } := rfl

/-- The `URI:` reserved prefix matches every generated `URI: value` line. -/
theorem uriColon_prefix_uriLine (u : JStr) :
    (js "URI:").isPrefixOf (js "URI: " ++ u) = true := rfl

theorem expPre_not_prefix_nbLine (v : JStr) :
    (js "Expiration Time: ").isPrefixOf (js "Not Before: " ++ v) = false := rfl

theorem expPre_not_prefix_ridLine (v : JStr) :
    (js "Expiration Time: ").isPrefixOf (js "Request ID: " ++ v) = false := rfl

theorem expPre_not_prefix_resources :
    (js "Expiration Time: ").isPrefixOf (js "Resources:") = false := rfl

theorem nbPre_not_prefix_ridLine (v : JStr) :
    (js "Not Before: ").isPrefixOf (js "Request ID: " ++ v) = false := rfl

theorem nbPre_not_prefix_resources :
    (js "Not Before: ").isPrefixOf (js "Resources:") = false := rfl

theorem ridPre_not_prefix_resources :
    (js "Request ID: ").isPrefixOf (js "Resources:") = false := rfl

theorem takeResources_map (rs : List JStr) :
    takeResources (rs.map (fun r => js "- " ++ r)) = (rs, []) := by
  induction rs with
  | nil => rfl
  | cons r rs ih =>
    simp only [List.map_cons, takeResources, isPrefixOf_append_self, if_pos]
    rw [ih]
    rfl

/-- Lines emitted for one field are line-feed free when the emitted form
of every admissible value is. -/
theorem emitField_noNL (v : Option JStr) (mk : JStr → JStr)
    (h : ∀ s, v = some s → s ≠ [] → '\n' ∉ mk s) :
    ∀ l ∈ emitField v mk, '\n' ∉ l := by
  rcases v with _ | s
  · simp [emitField]
  · by_cases hs : s = []
    · simp [emitField, hs]
    · intro l hl
      simp [emitField, hs] at hl
      rw [hl]
      exact h s rfl hs

/-- The statement block of `genLines` is line-feed free. -/
theorem statementBlock_noNL (v : Option JStr) (h : OkOpt v) :
    ∀ l ∈ (match v with
           | some s => if s = ([] : JStr) then [] else [s, []]
           | none => ([] : List JStr)), '\n' ∉ l := by
  rcases v with _ | s
  · simp
  · obtain ⟨hne, hnl⟩ := h
    simp only [if_neg hne, List.mem_cons, List.mem_singleton, List.not_mem_nil,
      or_false]
    intro l hl
    rcases hl with hl | hl
    · rw [hl]; exact hnl
    · rw [hl]; simp

/-- The resources block of `genLines` is line-feed free. -/
theorem resourcesBlock_noNL (v : Option (List JStr)) (h : OkRes v) :
    ∀ l ∈ (match v with
           | some rs =>
             if rs.length > 0 then js "Resources:" :: rs.map (fun r => js "- " ++ r)
             else []
           | none => ([] : List JStr)), '\n' ∉ l := by
  rcases v with _ | rs
  · simp
  · obtain ⟨hne, hnl⟩ := h
    have hlen : rs.length > 0 := List.length_pos.mpr hne
    simp only [hlen, if_pos, List.mem_cons, List.mem_map]
    intro l hl
    rcases hl with hl | ⟨r, hr, hl⟩
    · rw [hl]; decide
    · rw [← hl]
      simp only [List.mem_append]
      rintro (hc | hc)
      · revert hc; decide
      · exact hnl r hr hc

/-- Every line of `genLines` is line-feed free for a well-formed map. -/
theorem genLines_noNL (f : SiweMessageFields) (h : WellFormedBase f) :
    ∀ l ∈ genLines f, '\n' ∉ l := by
  obtain ⟨h1, h2, h3, h4, h5, h6, h7, h8, h9, h10, h11, h12, h13, h14⟩ := h
  intro l hl
  unfold genLines at hl
  simp only [List.mem_append, List.mem_cons, List.mem_singleton,
    List.not_mem_nil, or_false, false_or] at hl
  have hpre : ∀ (p : JStr), '\n' ∉ p → ∀ (v : Option JStr), OkOpt v →
      ∀ l' ∈ emitField v (fun s => p ++ s), '\n' ∉ l' := by
    intro p hp v hv
    refine emitField_noNL _ _ ?_
    intro s hs hsne
    rw [hs] at hv
    simp only [List.mem_append]
    rintro (hc | hc)
    · exact hp hc
    · exact hv.2 hc
  have hreq : ∀ (v : Option JStr), OkReq v → OkOpt v := by
    intro v hv
    rcases v with _ | s
    · exact hv.elim
    · exact hv
  rcases hl with ((((((((((((hl | hl) | hl) | hl) | hl) | hl) | hl) | hl) | hl) | hl) | hl) | hl) | hl)
  · refine emitField_noNL _ _ ?_ _ hl
    intro s hs hsne
    rw [hs] at h1
    simp only [List.mem_append]
    rintro (hc | hc)
    · exact h1.2 hc
    · revert hc; decide
  · refine emitField_noNL _ _ ?_ _ hl
    intro s hs hsne
    rw [hs] at h3
    exact h3.2
  · rw [hl]; simp
  · exact statementBlock_noNL f.statement h5 l hl
  · exact hpre _ (by decide) _ (hreq _ h6) l hl
  · exact hpre _ (by decide) _ (hreq _ h7) l hl
  · exact hpre _ (by decide) _ (hreq _ h8) l hl
  · exact hpre _ (by decide) _ (hreq _ h9) l hl
  · exact hpre _ (by decide) _ (hreq _ h10) l hl
  · exact hpre _ (by decide) _ h11 l hl
  · exact hpre _ (by decide) _ h12 l hl
  · exact hpre _ (by decide) _ h13 l hl
  · exact resourcesBlock_noNL f.resources h14 l hl

/-- `genLines` always contains the unconditional blank line. -/
theorem genLines_ne_nil (f : SiweMessageFields) : genLines f ≠ [] := by
  intro h
  have : ([] : JStr) ∈ genLines f := by
    unfold genLines
    simp
  rw [h] at this
  simp at this

end SiweMessageParser
end Siwe

namespace Siwe

/-- JavaScript `'- ' + r` followed by `.substring(2)` restores `r`. -/
theorem drop_two_dash (r : JStr) : (js "- " ++ r).drop 2 = r := rfl

end Siwe

/-- Claim C2, amended (the round-trip law with the well-formedness the
grammar forces): for every field map with all seven required fields set to
non-empty line-feed-free values, the domain free of characters the header
regex cannot capture, the address invariant under trimming, any subset of
the optional fields set to non-empty line-feed-free values, resources (if
set) a non-empty list of line-feed-free entries, and the statement (if
set) not beginning with the reserved prefix `URI:`, parsing the generated
message recovers exactly the same field map (resources as an ordered
sequence). -/
theorem generateMessage_parse_roundTrip (f : Siwe.SiweMessageFields)
    (h : Siwe.WellFormed f) :
    (Siwe.SiweMessageParser.parse (Siwe.SiweMessageParser.generateMessage f)).fields = f := by
  obtain ⟨hbase, hstmt⟩ := h
  have hsplit : Siwe.jsplit '\n' (Siwe.SiweMessageParser.generateMessage f) =
      Siwe.SiweMessageParser.genLines f :=
    Siwe.jsplit_jjoin '\n' _ (Siwe.SiweMessageParser.genLines_ne_nil f)
      (Siwe.SiweMessageParser.genLines_noNL f hbase)
  have hgoal : (Siwe.SiweMessageParser.parse
        (Siwe.SiweMessageParser.generateMessage f)).fields =
      (Siwe.SiweMessageParser.parseSteps (Siwe.SiweMessageParser.genLines f)).fields := by
    show (Siwe.SiweMessageParser.parseSteps
        (Siwe.jsplit '\n' (Siwe.SiweMessageParser.generateMessage f))).fields = _
    rw [hsplit]
  rw [hgoal]
  obtain ⟨h1, h2, h3, h4, h5, h6, h7, h8, h9, h10, h11, h12, h13, h14⟩ := hbase
  obtain ⟨fd, fa, fs, fu, fv, fc, fn, fia, fe, fnb, frid, frs⟩ := f
  rcases fd with _ | dval
  · exact (h1 : False).elim
  obtain ⟨hdne, hdnl⟩ := h1
  rcases dval with _ | ⟨dc, ds⟩
  · exact absurd rfl hdne
  rcases fa with _ | aval
  · exact (h3 : False).elim
  obtain ⟨hane, hanl⟩ := h3
  rcases aval with _ | ⟨ac, as2⟩
  · exact absurd rfl hane
  rcases fu with _ | uval
  · exact (h6 : False).elim
  obtain ⟨hune, hunl⟩ := h6
  rcases uval with _ | ⟨uc, us⟩
  · exact absurd rfl hune
  rcases fv with _ | vval
  · exact (h7 : False).elim
  obtain ⟨hvne, hvnl⟩ := h7
  rcases vval with _ | ⟨vc, vs⟩
  · exact absurd rfl hvne
  rcases fc with _ | cval
  · exact (h8 : False).elim
  obtain ⟨hcne, hcnl⟩ := h8
  rcases cval with _ | ⟨cc, cs⟩
  · exact absurd rfl hcne
  rcases fn with _ | nval
  · exact (h9 : False).elim
  obtain ⟨hnne, hnnl⟩ := h9
  rcases nval with _ | ⟨nc, ns⟩
  · exact absurd rfl hnne
  rcases fia with _ | iaval
  · exact (h10 : False).elim
  obtain ⟨hiane, hianl⟩ := h10
  rcases iaval with _ | ⟨ic, is2⟩
  · exact absurd rfl hiane
  rcases fs with _ | sval
  all_goals try obtain ⟨hsne, hsnl⟩ := h5
  all_goals try rcases sval with _ | ⟨sc, ss⟩
  all_goals try exact absurd rfl hsne
  all_goals rcases fe with _ | eval
  all_goals try obtain ⟨hene, henl⟩ := h11
  all_goals try rcases eval with _ | ⟨ec, es⟩
  all_goals try exact absurd rfl hene
  all_goals rcases fnb with _ | nbval
  all_goals try obtain ⟨hnbne, hnbnl⟩ := h12
  all_goals try rcases nbval with _ | ⟨nbc, nbs⟩
  all_goals try exact absurd rfl hnbne
  all_goals rcases frid with _ | ridval
  all_goals try obtain ⟨hridne, hridnl⟩ := h13
  all_goals try rcases ridval with _ | ⟨ridc, rids⟩
  all_goals try exact absurd rfl hridne
  all_goals rcases frs with _ | rsval
  all_goals try obtain ⟨hrsne, hrsnl⟩ := h14
  all_goals try rcases rsval with _ | ⟨r0, rtail⟩
  all_goals try exact absurd rfl hrsne
  all_goals simp only [Option.getD_some, Option.getD_none] at hstmt h2 h4
  all_goals
    have hmh : Siwe.SiweMessageParser.matchHeader
        (dc :: (ds ++ Siwe.SiweMessageParser.headerSuffix)) = some (dc :: ds) :=
      Siwe.SiweMessageParser.matchHeader_append (dc :: ds) (by simp) hdnl h2
  all_goals
    simp [Siwe.SiweMessageParser.parseSteps, Siwe.SiweMessageParser.genLines,
      Siwe.SiweMessageParser.emitField, Siwe.SiweMessageParser.headerStep,
      Siwe.SiweMessageParser.addressStep, Siwe.SiweMessageParser.skipEmptyStep,
      Siwe.SiweMessageParser.statementStep, Siwe.SiweMessageParser.requiredFieldStep,
      Siwe.SiweMessageParser.optionalFieldStep, Siwe.SiweMessageParser.resourcesStep,
      Siwe.SiweMessageParser.takeResources, hmh, h4, hstmt,
      Siwe.isPrefixOf_append_self, List.drop_left,
      Siwe.SiweMessageParser.uriColon_prefix_uriLine,
      Siwe.SiweMessageParser.expPre_not_prefix_nbLine,
      Siwe.SiweMessageParser.expPre_not_prefix_ridLine,
      Siwe.SiweMessageParser.expPre_not_prefix_resources,
      Siwe.SiweMessageParser.nbPre_not_prefix_ridLine,
      Siwe.SiweMessageParser.nbPre_not_prefix_resources,
      Siwe.SiweMessageParser.ridPre_not_prefix_resources,
      Siwe.SiweMessageParser.takeResources_map, Siwe.drop_two_dash,
      Siwe.SiweMessageParser.setStrField_uri, Siwe.SiweMessageParser.setStrField_version,
      Siwe.SiweMessageParser.setStrField_chainId, Siwe.SiweMessageParser.setStrField_nonce,
      Siwe.SiweMessageParser.setStrField_issuedAt,
      Siwe.SiweMessageParser.setStrField_expirationTime,
      Siwe.SiweMessageParser.setStrField_notBefore,
      Siwe.SiweMessageParser.setStrField_requestId]

/-- Counterexample to claim C2 as stated: the round trip is not exact for
every field map with required fields set and an arbitrary optional subset —
a statement value beginning with the reserved prefix `URI: ` is not
recovered (it shadows the uri field instead), so
`parse(generateMessage(f)).fields ≠ f` at this concrete map. -/
theorem roundTrip_fails_on_uri_prefixed_statement :
    (Siwe.SiweMessageParser.parse
        (Siwe.SiweMessageParser.generateMessage Siwe.statementUriFields)).fields ≠
      Siwe.statementUriFields := by
  decide

/-- Witness for the amended claim C2 at a concrete well-formed map. -/
theorem generateMessage_parse_roundTrip_witness :
    Siwe.WellFormed Siwe.sampleWellFormedFields ∧
    (Siwe.SiweMessageParser.parse
        (Siwe.SiweMessageParser.generateMessage Siwe.sampleWellFormedFields)).fields =
      Siwe.sampleWellFormedFields :=
  ⟨by decide, generateMessage_parse_roundTrip Siwe.sampleWellFormedFields (by decide)⟩


namespace Siwe.SiweMessageParser
open Siwe

/-! ## Claim C9 — statement-prefix ambiguity -/
theorem drop_five_uriLine (t : JStr) : (js "URI: " ++ t).drop 5 = t := rfl

theorem uriPre_ne_nil : js "URI: " ≠ ([] : JStr) := by decide

theorem uriColonPre_ne_nil : js "URI:" ≠ ([] : JStr) := by decide

theorem versionPre_ne_nil : js "Version: " ≠ ([] : JStr) := by decide

theorem chainPre_ne_nil : js "Chain ID: " ≠ ([] : JStr) := by decide

theorem noncePre_ne_nil : js "Nonce: " ≠ ([] : JStr) := by decide

theorem issuedAtPre_ne_nil : js "Issued At: " ≠ ([] : JStr) := by decide

theorem expPre_ne_nil : js "Expiration Time: " ≠ ([] : JStr) := by decide

theorem nbPre_ne_nil : js "Not Before: " ≠ ([] : JStr) := by decide

theorem ridPre_ne_nil : js "Request ID: " ≠ ([] : JStr) := by decide

theorem nil_ne_resources : ([] : JStr) ≠ js "Resources:" := by decide

theorem versionPre_not_uriHeaded (t : JStr) :
    (js "Version: ").isPrefixOf (js "URI:" ++ t) = false := rfl

theorem chainPre_not_uriHeaded (t : JStr) :
    (js "Chain ID: ").isPrefixOf (js "URI:" ++ t) = false := rfl

theorem noncePre_not_uriHeaded (t : JStr) :
    (js "Nonce: ").isPrefixOf (js "URI:" ++ t) = false := rfl

theorem issuedAtPre_not_uriHeaded (t : JStr) :
    (js "Issued At: ").isPrefixOf (js "URI:" ++ t) = false := rfl

theorem expPre_not_uriHeaded (t : JStr) :
    (js "Expiration Time: ").isPrefixOf (js "URI:" ++ t) = false := rfl

theorem nbPre_not_uriHeaded (t : JStr) :
    (js "Not Before: ").isPrefixOf (js "URI:" ++ t) = false := rfl

theorem ridPre_not_uriHeaded (t : JStr) :
    (js "Request ID: ").isPrefixOf (js "URI:" ++ t) = false := rfl

theorem uriHeaded_ne_resources (t : JStr) :
    js "URI:" ++ t ≠ js "Resources:" := by
  intro h
  have h0 : (js "URI:" ++ t).getD 0 ' ' = (js "Resources:").getD 0 ' ' := by
    rw [h]
  have hU : (js "URI:" ++ t).getD 0 ' ' = 'U' := rfl
  have hR : (js "Resources:").getD 0 ' ' = 'R' := rfl
  rw [hU, hR] at h0
  exact absurd h0 (by decide)

theorem setStrField_preserves_statement (f : SiweMessageFields) (name : String)
    (v : JStr) (h : name ≠ "statement") :
    (setStrField f name v).statement = f.statement := by
  unfold setStrField
  split_ifs <;> simp_all

theorem setStrField_preserves_uri (f : SiweMessageFields) (name : String)
    (v : JStr) (h : name ≠ "uri") :
    (setStrField f name v).uri = f.uri := by
  unfold setStrField
  split_ifs <;> simp_all

theorem optionalFieldStep_preserves_statement (pre : JStr) (name : String)
    (st : PState) (h : name ≠ "statement") :
    (optionalFieldStep pre name st).fields.statement = st.fields.statement := by
  rcases st with ⟨flds, errs, rest, idx⟩
  rcases rest with _ | ⟨l, ls⟩
  · rfl
  · by_cases hp : pre.isPrefixOf l <;>
      simp [optionalFieldStep, hp, setStrField_preserves_statement _ _ _ h]

theorem optionalFieldStep_preserves_uri (pre : JStr) (name : String)
    (st : PState) (h : name ≠ "uri") :
    (optionalFieldStep pre name st).fields.uri = st.fields.uri := by
  rcases st with ⟨flds, errs, rest, idx⟩
  rcases rest with _ | ⟨l, ls⟩
  · rfl
  · by_cases hp : pre.isPrefixOf l <;>
      simp [optionalFieldStep, hp, setStrField_preserves_uri _ _ _ h]

theorem resourcesStep_preserves_statement (st : PState) :
    (resourcesStep st).fields.statement = st.fields.statement := by
  rcases st with ⟨flds, errs, rest, idx⟩
  rcases rest with _ | ⟨l, ls⟩
  · rfl
  · by_cases hl : l = js "Resources:"
    · by_cases hr : (takeResources ls).1 ≠ [] <;> simp [resourcesStep, hl, hr]
    · simp [resourcesStep, hl]

theorem resourcesStep_preserves_uri (st : PState) :
    (resourcesStep st).fields.uri = st.fields.uri := by
  rcases st with ⟨flds, errs, rest, idx⟩
  rcases rest with _ | ⟨l, ls⟩
  · rfl
  · by_cases hl : l = js "Resources:"
    · by_cases hr : (takeResources ls).1 ≠ [] <;> simp [resourcesStep, hl, hr]
    · simp [resourcesStep, hl]

/-- The statement recorded by the full step chain is the one recorded by
the step chain up to the required fields: the optional-field and
resources steps never write the statement. -/
theorem parseSteps_statement (lines : List JStr) :
    (parseSteps lines).fields.statement =
      ((requiredFieldStep (js "Issued At: ") "issuedAt"
        (requiredFieldStep (js "Nonce: ") "nonce"
          (requiredFieldStep (js "Chain ID: ") "chainId"
            (requiredFieldStep (js "Version: ") "version"
              (requiredFieldStep (js "URI: ") "uri"
                (statementStep
                  (skipEmptyStep
                    (addressStep
                      (headerStep
                        { fields := {}, parseErrors := [],
                          rest := lines, idx := 0 })))))))))).fields.statement := by
  unfold parseSteps
  rw [resourcesStep_preserves_statement,
    optionalFieldStep_preserves_statement _ _ _ (by decide),
    optionalFieldStep_preserves_statement _ _ _ (by decide),
    optionalFieldStep_preserves_statement _ _ _ (by decide)]

/-- The uri recorded by the full step chain is the one recorded by the
step chain up to the required fields. -/
theorem parseSteps_uri (lines : List JStr) :
    (parseSteps lines).fields.uri =
      ((requiredFieldStep (js "Issued At: ") "issuedAt"
        (requiredFieldStep (js "Nonce: ") "nonce"
          (requiredFieldStep (js "Chain ID: ") "chainId"
            (requiredFieldStep (js "Version: ") "version"
              (requiredFieldStep (js "URI: ") "uri"
                (statementStep
                  (skipEmptyStep
                    (addressStep
                      (headerStep
                        { fields := {}, parseErrors := [],
                          rest := lines, idx := 0 })))))))))).fields.uri := by
  unfold parseSteps
  rw [resourcesStep_preserves_uri,
    optionalFieldStep_preserves_uri _ _ _ (by decide),
    optionalFieldStep_preserves_uri _ _ _ (by decide),
    optionalFieldStep_preserves_uri _ _ _ (by decide)]

end Siwe.SiweMessageParser

/-- Claim C9 (confirmed): for an otherwise well-formed message whose
statement begins with the reserved prefix `URI:`, `parse` never records
that line as the statement field (the statement comes back unset), and
when the prefix is the full `URI: ` field prefix the line is consumed as
the uri field instead — the uri value becomes the statement text after the
prefix, with no lookahead-based disambiguation. -/
theorem parse_uri_prefixed_statement_not_recorded (f : Siwe.SiweMessageFields)
    (s : Siwe.JStr) (hbase : Siwe.WellFormedBase f)
    (hs : f.statement = some s)
    (hpre : (Siwe.js "URI:").isPrefixOf s = true) :
    (Siwe.SiweMessageParser.parse
        (Siwe.SiweMessageParser.generateMessage f)).fields.statement = none ∧
    ((Siwe.js "URI: ").isPrefixOf s = true →
      (Siwe.SiweMessageParser.parse
          (Siwe.SiweMessageParser.generateMessage f)).fields.uri =
        some (s.drop 5)) := by
  have hsplit : Siwe.jsplit '\n' (Siwe.SiweMessageParser.generateMessage f) =
      Siwe.SiweMessageParser.genLines f :=
    Siwe.jsplit_jjoin '\n' _ (Siwe.SiweMessageParser.genLines_ne_nil f)
      (Siwe.SiweMessageParser.genLines_noNL f hbase)
  have hstmtGoal : (Siwe.SiweMessageParser.parse
      (Siwe.SiweMessageParser.generateMessage f)).fields.statement =
      (Siwe.SiweMessageParser.parseSteps
        (Siwe.SiweMessageParser.genLines f)).fields.statement := by
    show (Siwe.SiweMessageParser.parseSteps
        (Siwe.jsplit '\n' (Siwe.SiweMessageParser.generateMessage f))).fields.statement = _
    rw [hsplit]
  have huriGoal : (Siwe.SiweMessageParser.parse
      (Siwe.SiweMessageParser.generateMessage f)).fields.uri =
      (Siwe.SiweMessageParser.parseSteps
        (Siwe.SiweMessageParser.genLines f)).fields.uri := by
    show (Siwe.SiweMessageParser.parseSteps
        (Siwe.jsplit '\n' (Siwe.SiweMessageParser.generateMessage f))).fields.uri = _
    rw [hsplit]
  rw [hstmtGoal, huriGoal, Siwe.SiweMessageParser.parseSteps_statement,
    Siwe.SiweMessageParser.parseSteps_uri]
  obtain ⟨h1, h2, h3, h4, h5, h6, h7, h8, h9, h10, h11, h12, h13, h14⟩ := hbase
  obtain ⟨fd, fa, fs, fu, fv, fc, fn, fia, fe, fnb, frid, frs⟩ := f
  have hs' : fs = some s := hs
  subst hs'
  rcases fd with _ | dval
  · exact (h1 : False).elim
  obtain ⟨hdne, hdnl⟩ := h1
  rcases dval with _ | ⟨dc, ds⟩
  · exact absurd rfl hdne
  rcases fa with _ | aval
  · exact (h3 : False).elim
  obtain ⟨hane, hanl⟩ := h3
  rcases aval with _ | ⟨ac, as2⟩
  · exact absurd rfl hane
  rcases fu with _ | uval
  · exact (h6 : False).elim
  obtain ⟨hune, hunl⟩ := h6
  rcases uval with _ | ⟨uc, us⟩
  · exact absurd rfl hune
  rcases fv with _ | vval
  · exact (h7 : False).elim
  obtain ⟨hvne, hvnl⟩ := h7
  rcases vval with _ | ⟨vc, vs⟩
  · exact absurd rfl hvne
  rcases fc with _ | cval
  · exact (h8 : False).elim
  obtain ⟨hcne, hcnl⟩ := h8
  rcases cval with _ | ⟨cc, cs⟩
  · exact absurd rfl hcne
  rcases fn with _ | nval
  · exact (h9 : False).elim
  obtain ⟨hnne, hnnl⟩ := h9
  rcases nval with _ | ⟨nc, ns⟩
  · exact absurd rfl hnne
  rcases fia with _ | iaval
  · exact (h10 : False).elim
  obtain ⟨hiane, hianl⟩ := h10
  rcases iaval with _ | ⟨ic, is2⟩
  · exact absurd rfl hiane
  simp only [Option.getD_some] at h2 h4
  have hmh : Siwe.SiweMessageParser.matchHeader
      (dc :: (ds ++ Siwe.SiweMessageParser.headerSuffix)) = some (dc :: ds) :=
    Siwe.SiweMessageParser.matchHeader_append (dc :: ds) (by simp) hdnl h2
  by_cases hsp : (Siwe.js "URI: ").isPrefixOf s = true
  · obtain ⟨t2, ht2⟩ := (List.isPrefixOf_iff_prefix).mp hsp
    subst ht2
    refine ⟨?_, fun _ => ?_⟩ <;>
      simp [Siwe.SiweMessageParser.genLines,
        Siwe.SiweMessageParser.emitField, Siwe.SiweMessageParser.headerStep,
        Siwe.SiweMessageParser.addressStep, Siwe.SiweMessageParser.skipEmptyStep,
        Siwe.SiweMessageParser.statementStep, Siwe.SiweMessageParser.requiredFieldStep,
        hmh, h4, Siwe.isPrefixOf_append_self, List.drop_left,
        Siwe.SiweMessageParser.uriColon_prefix_uriLine,
        Siwe.SiweMessageParser.drop_five_uriLine,
        Siwe.SiweMessageParser.uriPre_ne_nil,
        Siwe.SiweMessageParser.versionPre_ne_nil,
        Siwe.SiweMessageParser.chainPre_ne_nil,
        Siwe.SiweMessageParser.noncePre_ne_nil,
        Siwe.SiweMessageParser.issuedAtPre_ne_nil,
        Siwe.SiweMessageParser.setStrField_uri, Siwe.SiweMessageParser.setStrField_version,
        Siwe.SiweMessageParser.setStrField_chainId, Siwe.SiweMessageParser.setStrField_nonce,
        Siwe.SiweMessageParser.setStrField_issuedAt]
  · have hspf : (Siwe.js "URI: ").isPrefixOf s = false := by
      cases hx : (Siwe.js "URI: ").isPrefixOf s
      · rfl
      · exact absurd hx hsp
    obtain ⟨t, ht⟩ := (List.isPrefixOf_iff_prefix).mp hpre
    subst ht
    refine ⟨?_, fun hcontr => absurd hcontr hsp⟩
    simp [Siwe.SiweMessageParser.genLines,
      Siwe.SiweMessageParser.emitField, Siwe.SiweMessageParser.headerStep,
      Siwe.SiweMessageParser.addressStep, Siwe.SiweMessageParser.skipEmptyStep,
      Siwe.SiweMessageParser.statementStep, Siwe.SiweMessageParser.requiredFieldStep,
      hmh, h4, hspf, Siwe.isPrefixOf_append_self, List.drop_left,
      Siwe.SiweMessageParser.uriPre_ne_nil,
      Siwe.SiweMessageParser.uriColonPre_ne_nil,
      Siwe.SiweMessageParser.versionPre_not_uriHeaded,
      Siwe.SiweMessageParser.chainPre_not_uriHeaded,
      Siwe.SiweMessageParser.noncePre_not_uriHeaded,
      Siwe.SiweMessageParser.issuedAtPre_not_uriHeaded,
      Siwe.SiweMessageParser.setStrField_uri, Siwe.SiweMessageParser.setStrField_version,
      Siwe.SiweMessageParser.setStrField_chainId, Siwe.SiweMessageParser.setStrField_nonce,
      Siwe.SiweMessageParser.setStrField_issuedAt]

/-- Witness for claim C9: on the concrete fixture whose statement is
`URI: evil`, the parsed statement is unset and the parsed uri is `evil`. -/
theorem parse_uri_prefixed_statement_not_recorded_witness :
    Siwe.WellFormedBase Siwe.statementUriFields ∧
    ((Siwe.SiweMessageParser.parse
        (Siwe.SiweMessageParser.generateMessage
          Siwe.statementUriFields)).fields.statement = none ∧
     ((Siwe.js "URI: ").isPrefixOf (Siwe.js "URI: evil") = true →
       (Siwe.SiweMessageParser.parse
           (Siwe.SiweMessageParser.generateMessage
             Siwe.statementUriFields)).fields.uri =
         some ((Siwe.js "URI: evil").drop 5))) :=
  ⟨by decide,
   parse_uri_prefixed_statement_not_recorded Siwe.statementUriFields
     (Siwe.js "URI: evil") (by decide) rfl (by decide)⟩


namespace Siwe.FieldReplacer
open Siwe

theorem replaceDomainField_frame (m v : JStr) :
    FrameResult m "domain" (replaceDomainField (jsplit '\n' m) v) := by
  unfold replaceDomainField FrameResult
  cases hidx : (jsplit '\n' m).findIdx? (fun l => jincludes wantsMarker l) with
  | none => exact Or.inl (jjoin_jsplit '\n' m)
  | some i =>
    refine Or.inr (Or.inl ⟨i, v ++ wantsMarker, ?_, rfl⟩)
    simp [fieldLineOf, hidx]

theorem replaceAddressField_frame (m v : JStr) :
    FrameResult m "address" (replaceAddressField (jsplit '\n' m) v) := by
  rcases hidx : (jsplit '\n' m).findIdx? (fun l => jincludes wantsMarker l) with _ | i
  · have hm : replaceAddressField (jsplit '\n' m) v = jjoin '\n' (jsplit '\n' m) := by
      simp only [replaceAddressField, hidx]
    rw [hm]
    exact Or.inl (jjoin_jsplit '\n' m)
  · rcases hk : findAddressAfter ((jsplit '\n' m).drop (i + 1)) with _ | k
    · have hm : replaceAddressField (jsplit '\n' m) v = jjoin '\n' (jsplit '\n' m) := by
        simp only [replaceAddressField, hidx, hk, Option.map_none]
      rw [hm]
      exact Or.inl (jjoin_jsplit '\n' m)
    · have hm : replaceAddressField (jsplit '\n' m) v =
          jjoin '\n' ((jsplit '\n' m).set (i + 1 + k) v) := by
        simp only [replaceAddressField, hidx, hk]
      rw [hm]
      refine Or.inr (Or.inl ⟨i + 1 + k, v, ?_, rfl⟩)
      simp [fieldLineOf, hidx, hk]

theorem replaceStatementField_frame (m v : JStr) :
    FrameResult m "statement" (replaceStatementField (jsplit '\n' m) v) := by
  unfold replaceStatementField FrameResult
  cases hidx : statementScan false (jsplit '\n' m) with
  | none => exact Or.inl (jjoin_jsplit '\n' m)
  | some i =>
    refine Or.inr (Or.inl ⟨i, v, ?_, rfl⟩)
    simp [fieldLineOf, hidx]

theorem replaceFieldWithPrefix_frame (m v pre : JStr) (fieldName : String)
    (hloc : fieldLineOf (jsplit '\n' m) fieldName =
      (jsplit '\n' m).findIdx? (fun l => pre.isPrefixOf l)) :
    FrameResult m fieldName (replaceFieldWithPrefix (jsplit '\n' m) pre v) := by
  unfold replaceFieldWithPrefix FrameResult
  cases hidx : (jsplit '\n' m).findIdx? (fun l => pre.isPrefixOf l) with
  | none => exact Or.inl (jjoin_jsplit '\n' m)
  | some i =>
    refine Or.inr (Or.inl ⟨i, pre ++ v, ?_, rfl⟩)
    rw [hloc, hidx]

theorem replaceExpirationTimeField_frame (m v : JStr) :
    FrameResult m "expirationTime" (replaceExpirationTimeField (jsplit '\n' m) v) := by
  rcases hidx : (jsplit '\n' m).findIdx?
      (fun l => (js "Expiration Time: ").isPrefixOf l) with _ | i
  · rcases hia : (jsplit '\n' m).findIdx?
        (fun l => (js "Issued At: ").isPrefixOf l) with _ | i
    · have hm : replaceExpirationTimeField (jsplit '\n' m) v =
          jjoin '\n' (jsplit '\n' m) := by
        simp only [replaceExpirationTimeField, hidx, hia]
      rw [hm]
      exact Or.inl (jjoin_jsplit '\n' m)
    · have hm : replaceExpirationTimeField (jsplit '\n' m) v =
          jjoin '\n' (jsplice (i + 1) (js "Expiration Time: " ++ v) (jsplit '\n' m)) := by
        simp only [replaceExpirationTimeField, hidx, hia]
      rw [hm]
      exact Or.inr (Or.inr ⟨rfl, i, js "Expiration Time: " ++ v, hia, rfl⟩)
  · have hm : replaceExpirationTimeField (jsplit '\n' m) v =
        jjoin '\n' ((jsplit '\n' m).set i (js "Expiration Time: " ++ v)) := by
      simp only [replaceExpirationTimeField, hidx]
    rw [hm]
    refine Or.inr (Or.inl ⟨i, js "Expiration Time: " ++ v, ?_, rfl⟩)
    simp [fieldLineOf, hidx]

theorem replaceField_frame (m : JStr) (fieldName : String) (v : JStr) :
    FrameResult m fieldName (replaceField m fieldName v) := by
  by_cases h1 : fieldName = "domain"
  · subst h1; exact replaceDomainField_frame m v
  by_cases h2 : fieldName = "address"
  · subst h2; exact replaceAddressField_frame m v
  by_cases h3 : fieldName = "statement"
  · subst h3; exact replaceStatementField_frame m v
  by_cases h4 : fieldName = "uri"
  · subst h4; exact replaceFieldWithPrefix_frame m v (js "URI: ") "uri" rfl
  by_cases h5 : fieldName = "version"
  · subst h5; exact replaceFieldWithPrefix_frame m v (js "Version: ") "version" rfl
  by_cases h6 : fieldName = "chainId"
  · subst h6; exact replaceFieldWithPrefix_frame m v (js "Chain ID: ") "chainId" rfl
  by_cases h7 : fieldName = "nonce"
  · subst h7; exact replaceFieldWithPrefix_frame m v (js "Nonce: ") "nonce" rfl
  by_cases h8 : fieldName = "issuedAt"
  · subst h8; exact replaceFieldWithPrefix_frame m v (js "Issued At: ") "issuedAt" rfl
  by_cases h9 : fieldName = "expirationTime"
  · subst h9; exact replaceExpirationTimeField_frame m v
  by_cases h10 : fieldName = "notBefore"
  · subst h10; exact replaceFieldWithPrefix_frame m v (js "Not Before: ") "notBefore" rfl
  by_cases h11 : fieldName = "requestId"
  · subst h11; exact replaceFieldWithPrefix_frame m v (js "Request ID: ") "requestId" rfl
  have hid : replaceField m fieldName v = m := by
    simp [replaceField, h1, h2, h3, h4, h5, h6, h7, h8, h9, h10, h11]
  rw [hid]
  exact Or.inl rfl

/-- Claim C1 (corrected): for every oracle, message and diagnostic whose
code is one of the sixteen field-fix codes, WHEN `applyFieldFix` returns a
string (it can instead throw on a missing field value — see the
counterexample), that string is the original message, or the original
lines with exactly the line located for the target field replaced, or
(expiration synthesis) the original lines with one new line inserted after
the `Issued At:` line; every other line of the input is byte-identical in
the output. The target field is the diagnostic's field, except that
`SECURITY_NO_EXPIRATION` always targets `expirationTime`. -/
theorem applyFieldFix_targeted_frame (o : Oracle) (m : JStr)
    (d : ValidationError) (h : d.code ∈ fieldFixCodes) (m' : JStr)
    (hres : applyFieldFix o m d = some m') :
    FrameResult m
      (if d.code = "SECURITY_NO_EXPIRATION" then "expirationTime" else d.field)
      m' := by
  simp only [fieldFixCodes, List.mem_cons, List.not_mem_nil, or_false] at h
  rcases h with he | he | he | he | he | he | he | he | he | he | he | he | he | he | he | he
  · simp only [he, reduceIte]
    simp [applyFieldFix, he] at hres
    rcases hfv : getStrField (SiweMessageParser.parse m).fields d.field with _ | v
    · rw [hfv] at hres
      simp at hres
    · rw [hfv] at hres
      simp at hres
      subst hres
      exact replaceField_frame m d.field _
  · simp only [he, reduceIte]
    simp [applyFieldFix, he] at hres
    rcases hfv : getStrField (SiweMessageParser.parse m).fields d.field with _ | v
    · rw [hfv] at hres
      simp at hres
    · rw [hfv] at hres
      simp at hres
      subst hres
      exact replaceField_frame m d.field _
  · simp only [he, reduceIte]
    simp [applyFieldFix, he] at hres
    subst hres
    exact replaceField_frame m d.field _
  · simp only [he, reduceIte]
    simp [applyFieldFix, he] at hres
    subst hres
    exact replaceField_frame m d.field _
  · simp only [he, reduceIte]
    simp [applyFieldFix, he] at hres
    subst hres
    exact replaceField_frame m d.field _
  · simp only [he, reduceIte]
    simp [applyFieldFix, he] at hres
    subst hres
    exact replaceField_frame m d.field _
  · simp only [he, reduceIte]
    simp [applyFieldFix, he] at hres
    subst hres
    exact replaceField_frame m d.field _
  · simp only [he, reduceIte]
    simp [applyFieldFix, he] at hres
    subst hres
    exact replaceField_frame m d.field _
  · simp only [he, reduceIte]
    simp [applyFieldFix, he] at hres
    subst hres
    exact replaceField_frame m d.field _
  · simp only [he, reduceIte]
    simp [applyFieldFix, he] at hres
    subst hres
    exact replaceField_frame m d.field _
  · simp only [he, reduceIte]
    simp [applyFieldFix, he] at hres
    subst hres
    exact replaceField_frame m d.field _
  · simp only [he, reduceIte]
    simp [applyFieldFix, he] at hres
    subst hres
    exact replaceField_frame m d.field _
  · simp only [he, reduceIte]
    simp [applyFieldFix, he] at hres
    subst hres
    exact replaceField_frame m d.field _
  · simp only [he, reduceIte]
    simp [applyFieldFix, he] at hres
    rcases hfv : getStrField (SiweMessageParser.parse m).fields d.field with _ | v
    · rw [hfv] at hres
      simp at hres
    · rw [hfv] at hres
      simp at hres
      subst hres
      exact replaceField_frame m d.field _
  · simp only [he, reduceIte]
    simp [applyFieldFix, he] at hres
    rcases hfv : getStrField (SiweMessageParser.parse m).fields d.field with _ | v
    · rw [hfv] at hres
      simp at hres
    · rw [hfv] at hres
      simp at hres
      subst hres
      exact replaceField_frame m d.field _
  · simp only [he, reduceIte]
    simp [applyFieldFix, he] at hres
    rcases hfx : o.expFix (SiweMessageParser.parse m).fields.issuedAt with _ | v
    · rw [hfx] at hres
      simp at hres
    · rw [hfx] at hres
      simp at hres
      subst hres
      exact replaceField_frame m "expirationTime" v

end Siwe.FieldReplacer

/-- Counterexample to claim C1 as stated: the targeted-replacement contract
does not hold for every message and fixable field diagnostic, because
`applyFieldFix` is not total on them — on a message with no URI line, a
`URI_INSECURE_SCHEME` diagnostic makes it call a string method on an
`undefined` field value, a thrown TypeError, so there is no output string
whose lines could be compared at all. -/
theorem applyFieldFix_throws_on_missing_field :
    Siwe.FieldReplacer.applyFieldFix Siwe.sampleOracle (Siwe.js "hello")
      { type := "security", field := "uri", line := 1, column := 1,
        message := "Insecure URI scheme", severity := "warning",
        fixable := true, code := "URI_INSECURE_SCHEME" } = none := by
  decide

/-- Witness for the amended claim C1: fixing `VERSION_INVALID` on the
one-line message `Version: 2` rewrites exactly the located version line. -/
theorem applyFieldFix_targeted_frame_witness :
    versionInvalidDiag.code ∈ Siwe.FieldReplacer.fieldFixCodes ∧
    Siwe.FieldReplacer.applyFieldFix Siwe.sampleOracle (Siwe.js "Version: 2")
        versionInvalidDiag = some (Siwe.js "Version: 1") ∧
    Siwe.FieldReplacer.FrameResult (Siwe.js "Version: 2")
      (if versionInvalidDiag.code = "SECURITY_NO_EXPIRATION" then "expirationTime"
       else versionInvalidDiag.field)
      (Siwe.js "Version: 1") :=
  ⟨by decide, by decide,
   Siwe.FieldReplacer.applyFieldFix_targeted_frame Siwe.sampleOracle
     (Siwe.js "Version: 2") versionInvalidDiag (by decide)
     (Siwe.js "Version: 1") (by decide)⟩
